import Mathlib

/-!
# A verification development for the eventa event/RPC runtime

This file gives a shallow embedding, in Lean 4, of the invoke (RPC) layer of
the eventa runtime and proves properties of its specification against it.

Embedding conventions:

* The event bus (`context.ts`) is not part of the sources; its `on`/`off`/
  `emit` operations are modelled from the specification (§4.1): `on` with
  listener deduplication, `off` by descriptor removing all listeners for that
  descriptor, `off` with a listener removing that listener, `emit`
  dispatching synchronously to the listeners matching the descriptor id in
  registration order (listeners registered during a dispatch are not invoked
  for the current emission).
* Event descriptor ids are derived by string concatenation from one family
  tag plus per-call invoke ids (`invoke-shared.ts`).  Ids are modelled as a
  structured type `EId` for a single family: the id generator (`nanoid`) is
  assumed collision-free (§9 of the specification assumes a collision rate
  below 10⁻⁹), so distinct roles and distinct invoke ids give distinct ids.
* JavaScript closures that capture mutable per-factory state (resolver maps,
  stream controllers, cancellation tokens) are modelled as an explicit state
  record, with the registered listeners represented by a first-order type
  enumerating the listener closures of the source together with their
  captured data.
* `async` boundaries: an `await` suspension is modelled by an explicit task
  queue where a claim observes the scheduling (the deferred abort of
  `stream.ts`); elsewhere the suspended remainder is run in sequence, which
  is observationally equal for the properties proved here because no other
  task is pending in those runs.
* Payload values are an opaque type `V`; invoke bodies follow the envelope
  shapes of `invoke-shared.ts` (`{ invokeId, content, isReqStream? }`, error
  bodies `{ invokeId, content: { error } }`, stream-end bodies with
  `undefined` content).
-/

set_option autoImplicit false

deriving instance DecidableEq for Except

namespace Eventa

/-- Event ids of one invoke family, as derived by `defineInvokeEventa`
(`invoke-shared.ts`): the six (seven with abort) role ids plus the per-call
suffixed receive ids, and the adapter-level fatal event ids. -/
inductive EId where
  | send
  | sendError
  | sendStreamEnd
  | sendAbort
  | recv (invokeId : String)
  | recvError (invokeId : String)
  | recvStreamEnd (invokeId : String)
  | fatal (n : Nat)
  deriving DecidableEq

/-- The `content` field of an invoke event body: a payload value, an error
object `{ error: e }` (the body shape of `receive-error` events), or
`undefined` (the body of stream-end events). -/
inductive Content (V : Type) where
  | val (v : V)
  | errObj (e : V)
  | undefined
  deriving DecidableEq

/-- An invoke event body `{ invokeId, content, isReqStream? }`. -/
structure Body (V : Type) where
  invokeId : String
  content : Content V
  isReqStream : Bool := false
  deriving DecidableEq

/-- A dispatched envelope: the descriptor id and the (possibly missing)
body. -/
structure Envelope (V : Type) where
  eid : EId
  body : Option (Body V)
  deriving DecidableEq

/-- Reading `payload.body.content.error`: the `error` field of an error
body, `undefined` when the content is not an error object. -/
def errField {V : Type} : Content V → Content V
  | .errObj e => .val e
  | _ => .undefined

/-- Bus `on` with listener deduplication (spec §4.1): registering the same
listener against the same target twice is a no-op.  `L` is the type of
listener closures of the machine at hand. -/
def busOn {L : Type} [DecidableEq L] (eid : EId) (l : L)
    (ls : List (EId × L)) : List (EId × L) :=
  if (eid, l) ∈ ls then ls else ls ++ [(eid, l)]

/-- Bus `off` with the listener omitted (spec §4.1): remove all listeners
for the descriptor. -/
def offAll {L : Type} [DecidableEq L] (eid : EId) :
    List (EId × L) → List (EId × L)
  | [] => []
  | (e, l) :: rest =>
    if e = eid then offAll eid rest else (e, l) :: offAll eid rest

/-- Bus `off` with a listener (spec §4.1): remove that registration. -/
def offOne {L : Type} [DecidableEq L] (eid : EId) (l : L) :
    List (EId × L) → List (EId × L)
  | [] => []
  | (e, l') :: rest =>
    if e = eid ∧ l' = l then rest else (e, l') :: offOne eid l rest

/-- The payload handed to a user handler: a plain request body or the
consumer side of a synthesized request stream (identified by the invoke id
it was created for). -/
inductive HPayload (V : Type) where
  | plain (c : Content V)
  | stream (invokeId : String)
  deriving DecidableEq

/-- A server-side synthesized request stream (the `ReadableStream` whose
controller is stored in `streamStates`). -/
structure ReqStream (V : Type) where
  chunks : List (Content V)
  closed : Bool
  deriving DecidableEq

/-- `Map.set`-style update of a stream table keyed by invoke id (the keys
are unique). -/
def updStream {S : Type} (iid : String) (f : S → S) :
    List (String × S) → List (String × S)
  | [] => []
  | (k, s) :: rest =>
    if k = iid then (k, f s) :: rest else (k, s) :: updStream iid f rest

/-- Association-list lookup (`Map.get`). -/
def lookupA {S : Type} (iid : String) : List (String × S) → Option S
  | [] => none
  | (k, s) :: rest => if k = iid then some s else lookupA iid rest

/-- Association-list key presence (`Map.has`). -/
def hasA {S : Type} (iid : String) (m : List (String × S)) : Bool :=
  (lookupA iid m).isSome

/-- `Map.delete` on an association list keyed by invoke id. -/
def delA {S : Type} (iid : String) : List (String × S) → List (String × S)
  | [] => []
  | (k, s) :: rest => if k = iid then rest else (k, s) :: delA iid rest

/-- `controller.enqueue(content)` on the request stream for `iid`. -/
def enqueueChunk {V : Type} (iid : String) (c : Content V) :
    List (String × ReqStream V) → List (String × ReqStream V) :=
  updStream iid (fun s => { s with chunks := s.chunks ++ [c] })

/-- `controller.close()` on the request stream for `iid`. -/
def closeStream {V : Type} (iid : String) :
    List (String × ReqStream V) → List (String × ReqStream V) :=
  updStream iid (fun s => { s with closed := true })

namespace Unary

/-!
## The unary invoke machine (`invoke.ts`)

Client side: `defineInvoke` / `_invoke` (invoke.ts lines 164-248).
Server side: `defineInvokeHandler`'s `handleInvoke`, `onSend`,
`onSendStreamEnd` (invoke.ts lines 301-417).

The per-call listener closures of `_invoke` and the two server listeners are
the members of `UListener`; the factory's resolver/rejector maps are the
`resolvers`/`rejectors` fields (presence of an invoke id means the map has
an entry for it), and calls of those stored resolver/rejector functions are
logged in `settled` (one entry per call of a resolver or rejector, so the
log length is the number of times the call's promise was asked to settle).

`clientFatal` is modelled from the spec (§4.6, fatal transport events):
the revision of `defineInvoke` that subscribes the per-call fatal listeners
configured by `registerInvokeAbortEventListeners` is not among the sources,
only its configuration helper and its test are.  Per the spec, when a
registered fatal event fires, the listener rejects the pending call with the
carried error and removes the call's per-call listeners.
-/

/-- The listener closures registered by the unary client and server. -/
inductive UListener where
  | clientReceive (invokeId : String)
  | clientReceiveError (invokeId : String)
  | clientFatal (invokeId : String)
  | serverOnSend
  | serverOnSendStreamEnd
  deriving DecidableEq

/-- A recorded settlement of a call's promise. -/
inductive Settle (V : Type) where
  | fulfilled (c : Content V)
  | rejected (c : Content V)
  deriving DecidableEq

/-- A pending asynchronous continuation: `handleInvoke`'s awaited handler
call together with the response emission that follows it. -/
inductive UTask (V : Type) where
  | handleInvoke (invokeId : String) (payload : HPayload V)
  deriving DecidableEq

/-- The full mutable state of one unary client/server pair sharing a bus. -/
structure UState (V : Type) where
  listeners : List (EId × UListener)
  resolvers : List String
  rejectors : List String
  settled : List (String × Settle V)
  wire : List (Envelope V)
  tasks : List (UTask V)
  handlerRuns : List (String × HPayload V)
  streamStates : List String
  streams : List (String × ReqStream V)
  deriving DecidableEq

variable {V : Type}

def busOnSt (eid : EId) (l : UListener) (st : UState V) : UState V :=
  { st with listeners := busOn eid l st.listeners }

def offAllSt (eid : EId) (st : UState V) : UState V :=
  { st with listeners := offAll eid st.listeners }

/-- One listener closure, run on a delivered envelope.  Each branch mirrors
the corresponding closure of `invoke.ts`. -/
def runUListener (l : UListener) (env : Envelope V) (st : UState V) :
    UState V :=
  match l with
  | .clientReceive iid =>
    -- invoke.ts lines 185-199
    match env.body with
    | none => st
    | some b =>
      if b.invokeId = iid then
        let st1 :=
          if iid ∈ st.resolvers then
            { st with settled := st.settled ++ [(iid, .fulfilled b.content)] }
          else st
        let st2 := { st1 with resolvers := st1.resolvers.erase iid,
                              rejectors := st1.rejectors.erase iid }
        offAllSt (.recvError iid) (offAllSt (.recv iid) st2)
      else st
  | .clientReceiveError iid =>
    -- invoke.ts lines 201-215
    match env.body with
    | none => st
    | some b =>
      if b.invokeId = iid then
        let st1 :=
          if iid ∈ st.rejectors then
            { st with settled :=
                st.settled ++ [(iid, .rejected (errField b.content))] }
          else st
        let st2 := { st1 with rejectors := st1.rejectors.erase iid,
                              resolvers := st1.resolvers.erase iid }
        offAllSt (.recvError iid) (offAllSt (.recv iid) st2)
      else st
  | .clientFatal iid =>
    -- Modelled from the spec: §4.6 "When any of them fires, every pending
    -- unary and streaming call on this context must reject with the carried
    -- error, and their per-call listeners removed."  The subscribing
    -- revision of defineInvoke is not among the sources.
    match env.body with
    | none => st
    | some b =>
      let st1 :=
        if iid ∈ st.rejectors then
          { st with settled :=
              st.settled ++ [(iid, .rejected (errField b.content))] }
        else st
      let st2 := { st1 with rejectors := st1.rejectors.erase iid,
                            resolvers := st1.resolvers.erase iid }
      let st3 := offAllSt (.recvError iid) (offAllSt (.recv iid) st2)
      { st3 with listeners := offOne env.eid (.clientFatal iid) st3.listeners }
  | .serverOnSend =>
    -- invoke.ts lines 346-376
    match env.body with
    | none => st
    | some b =>
      if b.invokeId = "" then st
      else if b.isReqStream then
        if b.invokeId ∈ st.streamStates then
          { st with streams := enqueueChunk b.invokeId b.content st.streams }
        else
          let st1 : UState V := { st with
            streams := st.streams ++ [(b.invokeId, ⟨[], false⟩)],
            streamStates := st.streamStates ++ [b.invokeId],
            tasks := st.tasks ++
              [UTask.handleInvoke b.invokeId (.stream b.invokeId)] }
          { st1 with
            streams := enqueueChunk b.invokeId b.content st1.streams }
      else
        { st with tasks := st.tasks ++
            [.handleInvoke b.invokeId (.plain b.content)] }
  | .serverOnSendStreamEnd =>
    -- invoke.ts lines 378-404
    match env.body with
    | none => st
    | some b =>
      if b.invokeId = "" then st
      else
        let st1 : UState V :=
          if b.invokeId ∈ st.streamStates then st
          else { st with
            streams := st.streams ++ [(b.invokeId, ⟨[], false⟩)],
            streamStates := st.streamStates ++ [b.invokeId],
            tasks := st.tasks ++
              [UTask.handleInvoke b.invokeId (.stream b.invokeId)] }
        { st1 with
          streams := closeStream b.invokeId st1.streams,
          streamStates := st1.streamStates.erase b.invokeId }

/-- Run the listeners of the pre-dispatch snapshot that match the emitted
descriptor id, in registration order (spec §4.1). -/
def runMatching (env : Envelope V) :
    List (EId × UListener) → UState V → UState V
  | [], st => st
  | (eid, l) :: rest, st =>
    runMatching env rest (if eid = env.eid then runUListener l env st else st)

/-- Bus `emit`: record the envelope on the wire and dispatch synchronously
to the matching listeners. -/
def emitU (env : Envelope V) (st : UState V) : UState V :=
  runMatching env st.listeners { st with wire := st.wire ++ [env] }

/-- Run the next pending task: `handleInvoke` awaits the user handler and
emits `receive-<id>` with the response, or `receive-error-<id>` carrying
`{ error }` when the handler throws (invoke.ts lines 327-344). -/
def uStep (h : HPayload V → Except V V) (st : UState V) : UState V :=
  match st.tasks with
  | [] => st
  | .handleInvoke iid p :: rest =>
    let st1 := { st with tasks := rest,
                         handlerRuns := st.handlerRuns ++ [(iid, p)] }
    match h p with
    | .ok r => emitU ⟨.recv iid, some ⟨iid, .val r, false⟩⟩ st1
    | .error e => emitU ⟨.recvError iid, some ⟨iid, .errObj e, false⟩⟩ st1

/-- The empty context. -/
def emptyU : UState V :=
  ⟨[], [], [], [], [], [], [], [], []⟩

/-- A context on which `defineInvokeHandler` has registered one handler:
`ctx.on(event.sendEvent, onSend)` then
`ctx.on(event.sendEventStreamEnd, onSendStreamEnd)` (invoke.ts 409-410). -/
def serverState : UState V :=
  busOnSt .sendStreamEnd .serverOnSendStreamEnd
    (busOnSt .send .serverOnSend emptyU)

/-- `_invoke` for a non-stream request (invoke.ts lines 176-245): store the
resolver and rejector, register the two per-call listeners, register the
spec-modelled fatal listeners for each configured fatal event id, then emit
`send`. -/
def invokeCall (cfg : List Nat) (iid : String) (req : Content V)
    (st : UState V) : UState V :=
  let st1 := { st with resolvers := st.resolvers ++ [iid],
                       rejectors := st.rejectors ++ [iid] }
  let st2 := busOnSt (.recv iid) (.clientReceive iid) st1
  let st3 := busOnSt (.recvError iid) (.clientReceiveError iid) st2
  let st4 := cfg.foldl (fun s n => busOnSt (.fatal n) (.clientFatal iid) s) st3
  emitU ⟨.send, some ⟨iid, req, false⟩⟩ st4

/-- The complete unary round trip of claim C1: one registered handler, one
non-stream `invoke(req)` call, then the single pending `handleInvoke`
continuation runs. -/
def c1Run (h : HPayload V → Except V V) (iid : String) (req : V) : UState V :=
  uStep h (invokeCall [] iid (.val req) serverState)

/-- Two pending unary calls on a context configured with fatal event `fid`,
then the fatal event fires carrying `{ error: e }`.  No handler is
registered, so both calls stay pending until the fatal event. -/
def c5Run (fid : Nat) (iid1 iid2 : String) (req1 req2 : Content V) (e : V) :
    UState V :=
  let cfg := [fid]
  emitU ⟨.fatal fid, some ⟨"", .errObj e, false⟩⟩
    (invokeCall cfg iid2 req2 (invokeCall cfg iid1 req1 emptyU))

end Unary

/-- `registerInvokeAbortEventListeners`
(context-extension-invoke-internal.ts lines 458-477), restricted to its
observable effect: the configured list
`extensions.__internal.invoke.abortOnEvents` gets the event pushed when not
already included (registration is additive and deduplicating).  Fatal event
descriptors are identified by their `EId.fatal` index. -/
def registerInvokeAbortEventListeners (n : Nat) (abortOnEvents : List Nat) :
    List Nat :=
  if n ∈ abortOnEvents then abortOnEvents else abortOnEvents ++ [n]

namespace Registry

/-!
## Handler registration bookkeeping (`invoke.ts`)

`defineInvokeHandler` / `undefineInvokeHandler` maintain
`ctx.invokeHandlers : Map<sendEventId, Map<handler, internalHandler>>`
alongside the bus registrations of each handler's `onSend` and
`onSendStreamEnd` listeners.  User handlers are identified by a number.
-/

/-- The internal listener closures created by `defineInvokeHandler` for the
user handler identified by a number. -/
inductive RListener where
  | onSend (h : Nat)
  | onSendStreamEnd (h : Nat)
  deriving DecidableEq

/-- Bookkeeping state of one context and one invoke family: the bus
registry plus `ctx.invokeHandlers` (`none` when the context has no table
yet; otherwise the table's entry for the family's `sendEvent.id`, which is
`none` when absent and otherwise the insertion-ordered keys of the inner
handler map). -/
structure RState where
  listeners : List (EId × RListener)
  invokeHandlers : Option (Option (List Nat))
  deriving DecidableEq

def emptyR : RState := ⟨[], none⟩

/-- `defineInvokeHandler` (invoke.ts lines 301-417), restricted to its
bookkeeping: ensure the tables exist; when the handler has no internal
handler yet, create it, store it, and register its two listeners
(`ctx.on(sendEvent, onSend)` then `ctx.on(sendEventStreamEnd,
onSendStreamEnd)`). -/
def defineInvokeHandler (h : Nat) (st : RState) : RState :=
  let entry := (st.invokeHandlers.getD none).getD []
  if h ∈ entry then { st with invokeHandlers := some (some entry) }
  else
    { listeners := busOn .sendStreamEnd (.onSendStreamEnd h)
        (busOn .send (.onSend h) st.listeners),
      invokeHandlers := some (some (entry ++ [h])) }

/-- `undefineInvokeHandler` (invoke.ts lines 479-520): the boolean result
and the updated state.  In the targeted branch the final step is
`ctx.invokeHandlers.delete(event.sendEvent.id)`: the entire per-family
entry is dropped, not only the removed handler's key. -/
def undefineInvokeHandler (h? : Option Nat) (st : RState) : Bool × RState :=
  match st.invokeHandlers with
  | none => (false, st)
  | some entry? =>
    match entry? with
    | none => (false, st)
    | some entry =>
      match h? with
      | some h =>
        if h ∈ entry then
          (true,
            { listeners := offOne .sendStreamEnd (.onSendStreamEnd h)
                (offOne .send (.onSend h) st.listeners),
              invokeHandlers := some none })
        else (false, st)
      | none =>
        (decide (entry ≠ []),
          { listeners := entry.foldl
              (fun acc h => offOne .sendStreamEnd (.onSendStreamEnd h)
                (offOne .send (.onSend h) acc)) st.listeners,
            invokeHandlers := some none })

/-- The handlers that would run on a `send` dispatch: those whose `onSend`
listener is currently registered on the bus, in order. -/
def runningHandlers (st : RState) : List Nat :=
  st.listeners.foldr
    (fun p acc =>
      match p with
      | (.send, .onSend h) => h :: acc
      | _ => acc) []

end Registry

namespace StreamV0

/-!
## The streaming invoke machine without cancellation (`stream.ts`)

Client side: `defineStreamInvoke` (stream.ts lines 50-135).
Server side: `defineStreamInvokeHandler` (stream.ts lines 175-254).

The client's response `ReadableStream` is represented by its observable
content: the enqueued chunks and the terminal state (closed or errored).
The server's async generator run is a `GenRun`: the yielded values followed
by a normal return or a thrown error, mirroring the `for await` loop of
`handleInvoke` (lines 188-204).
-/

/-- The listener closures of the streaming client and server. -/
inductive SListener where
  | clientReceive (invokeId : String)
  | clientReceiveError (invokeId : String)
  | clientReceiveStreamEnd (invokeId : String)
  | serverOnSend
  | serverOnSendStreamEnd
  deriving DecidableEq

/-- Terminal state of the client-side response stream. -/
inductive STerm (V : Type) where
  | closed
  | errored (c : Content V)
  deriving DecidableEq

/-- One run of the user's async generator: the values it yields, then a
normal return (`thrown = none`) or a thrown error. -/
structure GenRun (V : Type) where
  yields : List V
  thrown : Option V
  deriving DecidableEq

/-- The pending `handleInvoke` continuation of the server. -/
inductive S0Task (V : Type) where
  | handleInvoke (invokeId : String) (payload : HPayload V)
  deriving DecidableEq

/-- State of one streaming client/server pair sharing a bus. -/
structure S0State (V : Type) where
  listeners : List (EId × SListener)
  wire : List (Envelope V)
  tasks : List (S0Task V)
  handlerRuns : List (String × HPayload V)
  clientChunks : List (Content V)
  clientTerm : Option (STerm V)
  streamStates : List String
  streams : List (String × ReqStream V)
  deriving DecidableEq

variable {V : Type}

/-- One listener closure, run on a delivered envelope.  Each branch mirrors
the corresponding closure of `stream.ts`.  `controller.enqueue` /
`controller.error` / `controller.close` on the client stream are modelled
on a live (non-terminated) stream only; the runs proved here never touch a
terminated controller. -/
def runS0Listener (l : SListener) (env : Envelope V) (st : S0State V) :
    S0State V :=
  match l with
  | .clientReceive iid =>
    -- stream.ts lines 67-76
    match env.body with
    | none => st
    | some b =>
      if b.invokeId = iid then
        if st.clientTerm.isNone then
          { st with clientChunks := st.clientChunks ++ [b.content] }
        else st
      else st
  | .clientReceiveError iid =>
    -- stream.ts lines 77-86: controller.error(payload.body.content.error)
    match env.body with
    | none => st
    | some b =>
      if b.invokeId = iid then
        if st.clientTerm.isNone then
          { st with clientTerm := some (.errored (errField b.content)) }
        else st
      else st
  | .clientReceiveStreamEnd iid =>
    -- stream.ts lines 87-96
    match env.body with
    | none => st
    | some b =>
      if b.invokeId = iid then
        if st.clientTerm.isNone then { st with clientTerm := some .closed }
        else st
      else st
  | .serverOnSend =>
    -- stream.ts lines 206-236
    match env.body with
    | none => st
    | some b =>
      if b.invokeId = "" then st
      else if b.isReqStream then
        if b.invokeId ∈ st.streamStates then
          { st with streams := enqueueChunk b.invokeId b.content st.streams }
        else
          let st1 : S0State V := { st with
            streams := st.streams ++ [(b.invokeId, ⟨[], false⟩)],
            streamStates := st.streamStates ++ [b.invokeId],
            tasks := st.tasks ++
              [S0Task.handleInvoke b.invokeId (.stream b.invokeId)] }
          { st1 with
            streams := enqueueChunk b.invokeId b.content st1.streams }
      else
        { st with tasks := st.tasks ++
            [S0Task.handleInvoke b.invokeId (.plain b.content)] }
  | .serverOnSendStreamEnd =>
    -- stream.ts lines 238-253: when no controller exists for the invoke id
    -- the listener returns without any effect.
    match env.body with
    | none => st
    | some b =>
      if b.invokeId = "" then st
      else if b.invokeId ∈ st.streamStates then
        { st with
          streams := closeStream b.invokeId st.streams,
          streamStates := st.streamStates.erase b.invokeId }
      else st

/-- Run the listeners of the pre-dispatch snapshot matching the emitted id,
in registration order (spec §4.1). -/
def runMatching0 (env : Envelope V) :
    List (EId × SListener) → S0State V → S0State V
  | [], st => st
  | (eid, l) :: rest, st =>
    runMatching0 env rest
      (if eid = env.eid then runS0Listener l env st else st)

/-- Bus `emit` on this machine. -/
def emitS0 (env : Envelope V) (st : S0State V) : S0State V :=
  runMatching0 env st.listeners { st with wire := st.wire ++ [env] }

/-- The `for await (const res of generator)` loop of `handleInvoke`
(stream.ts lines 195-197): emit `receive-<id>` for each yielded value in
order. -/
def emitYields (iid : String) : List V → S0State V → S0State V
  | [], st => st
  | y :: rest, st =>
    emitYields iid rest (emitS0 ⟨.recv iid, some ⟨iid, .val y, false⟩⟩ st)

/-- Run the next pending `handleInvoke` continuation (stream.ts lines
188-204): run the generator, emit each yield, then `receive-stream-end` on
normal return or `receive-error` carrying `{ error }` on a throw. -/
def s0Step (producer : HPayload V → GenRun V) (st : S0State V) : S0State V :=
  match st.tasks with
  | [] => st
  | .handleInvoke iid p :: rest =>
    let st1 : S0State V := { st with tasks := rest,
                                     handlerRuns := st.handlerRuns ++ [(iid, p)] }
    let g := producer p
    let st2 := emitYields iid g.yields st1
    match g.thrown with
    | none => emitS0 ⟨.recvStreamEnd iid, some ⟨iid, .undefined, false⟩⟩ st2
    | some e => emitS0 ⟨.recvError iid, some ⟨iid, .errObj e, false⟩⟩ st2

/-- The empty context. -/
def emptyS0 : S0State V :=
  ⟨[], [], [], [], [], none, [], []⟩

/-- A context on which `defineStreamInvokeHandler` has registered one
producer (stream.ts lines 206 and 238). -/
def serverState0 : S0State V :=
  let ls : List (EId × SListener) :=
    busOn .sendStreamEnd .serverOnSendStreamEnd (busOn .send .serverOnSend [])
  { emptyS0 with listeners := ls }

/-- `defineStreamInvoke`'s returned call for a non-stream request
(stream.ts lines 58-134): construct the response stream (registering the
three per-call listeners, lines 67-96), then emit `send` (line 130). -/
def streamCall (iid : String) (req : Content V) (st : S0State V) :
    S0State V :=
  let ls : List (EId × SListener) :=
    busOn (.recvStreamEnd iid) (.clientReceiveStreamEnd iid)
      (busOn (.recvError iid) (.clientReceiveError iid)
        (busOn (.recv iid) (.clientReceive iid) st.listeners))
  emitS0 ⟨.send, some ⟨iid, req, false⟩⟩ { st with listeners := ls }

/-- The complete streaming round trip of claim C2: one registered producer,
one non-stream call, then the single pending `handleInvoke` runs. -/
def c2Run (producer : HPayload V → GenRun V) (iid : String) (req : V) :
    S0State V :=
  s0Step producer (streamCall iid (.val req) serverState0)

/-- The bus registry after `streamCall` on `serverState0`: the server's two
listeners followed by the call's three per-call listeners, in registration
order. -/
def fullListeners (iid : String) : List (EId × SListener) :=
  [(.send, .serverOnSend), (.sendStreamEnd, .serverOnSendStreamEnd),
   (.recv iid, .clientReceive iid), (.recvError iid, .clientReceiveError iid),
   (.recvStreamEnd iid, .clientReceiveStreamEnd iid)]

end StreamV0

namespace StreamAbort

/-!
## The abort-capable streaming machine (`src/unnamed/part_000`)

`part_000` is the revision of `stream.ts` with cancellation support.
Client side: `defineStreamInvoke` with an `AbortSignal` (lines 50-180).
Server side: `defineStreamInvokeHandler` with cooperative cancellation
tokens, the deferred-abort table and the `send-abort` listener (lines
217-361).  The client and the server run on separate contexts, so they are
modelled as two separate machines.

`createAbortError(reason)` (utils.ts lines 33-50) produces an `Error` named
`"AbortError"` from the abort reason; it is modelled by the constructor
`CErr.abortError reason` (reasons are opaque values here, so the source's
shortcut of returning a reason that is already an `AbortError` unchanged is
subsumed by the constructor).
-/

/-- Errors surfaced on a response or request stream. -/
inductive CErr (V : Type) where
  | abortError (reason : Content V)
  | wire (c : Content V)
  deriving DecidableEq

/-- Terminal state of a stream controller. -/
inductive CTerm (V : Type) where
  | closed
  | errored (e : CErr V)
  deriving DecidableEq

/-- The per-call listener closures of the abort-capable streaming client.
`clientFatal` is modelled from the spec (§4.6): the revision wiring
`registerInvokeAbortEventListeners` into streaming calls is not among the
sources; per the spec it must error the pending stream with the carried
error and remove the call's per-call listeners. -/
inductive SCListener where
  | clientReceive (invokeId : String)
  | clientReceiveError (invokeId : String)
  | clientReceiveStreamEnd (invokeId : String)
  | clientFatal (invokeId : String)
  deriving DecidableEq

/-- State of the abort-capable streaming client (one call): the bus
registry, the wire log, whether the `abort` listener is attached to the
caller's signal, and the observable content of the response stream. -/
structure SCState (V : Type) where
  listeners : List (EId × SCListener)
  wire : List (Envelope V)
  signalListener : Bool
  clientChunks : List (Content V)
  clientTerm : Option (CTerm V)
  deriving DecidableEq

variable {V : Type}

/-- The `cleanup` closure (part_000 lines 69-76): off the three per-call
descriptors and detach the signal listener. -/
def cleanupSC (iid : String) (st : SCState V) : SCState V :=
  { st with
    listeners := offAll (.recvStreamEnd iid)
      (offAll (.recvError iid) (offAll (.recv iid) st.listeners)),
    signalListener := false }

/-- One client listener closure, run on a delivered envelope (part_000
lines 84-115 and the spec-modelled fatal listener). -/
def runSCListener (l : SCListener) (env : Envelope V) (st : SCState V) :
    SCState V :=
  match l with
  | .clientReceive iid =>
    match env.body with
    | none => st
    | some b =>
      if b.invokeId = iid then
        if st.clientTerm.isNone then
          { st with clientChunks := st.clientChunks ++ [b.content] }
        else st
      else st
  | .clientReceiveError iid =>
    match env.body with
    | none => st
    | some b =>
      if b.invokeId = iid then
        let e : CErr V := .wire (errField b.content)
        let st1 : SCState V :=
          if st.clientTerm.isNone then
            { st with clientTerm := some (.errored e) }
          else st
        cleanupSC iid st1
      else st
  | .clientReceiveStreamEnd iid =>
    match env.body with
    | none => st
    | some b =>
      if b.invokeId = iid then
        let st1 : SCState V :=
          if st.clientTerm.isNone then { st with clientTerm := some .closed }
          else st
        cleanupSC iid st1
      else st
  | .clientFatal iid =>
    -- Modelled from the spec: §4.6 fatal transport events must error every
    -- pending streaming call with the carried error and remove its
    -- per-call listeners.
    match env.body with
    | none => st
    | some b =>
      let st1 : SCState V :=
        if st.clientTerm.isNone then
          { st with clientTerm := some (.errored (.wire (errField b.content))) }
        else st
      let st2 := cleanupSC iid st1
      { st2 with listeners := offOne env.eid (.clientFatal iid) st2.listeners }

def runMatchingSC (env : Envelope V) :
    List (EId × SCListener) → SCState V → SCState V
  | [], st => st
  | (eid, l) :: rest, st =>
    runMatchingSC env rest
      (if eid = env.eid then runSCListener l env st else st)

/-- Bus `emit` on the client context. -/
def emitSC (env : Envelope V) (st : SCState V) : SCState V :=
  runMatchingSC env st.listeners { st with wire := st.wire ++ [env] }

/-- The `onAbort` closure (part_000 lines 78-82): emit `send-abort`
carrying `signal.reason`, error the response stream with
`createAbortError(signal.reason)`, then clean up the per-call listeners. -/
def scOnAbort (iid : String) (reason : Content V) (st : SCState V) :
    SCState V :=
  let st1 := emitSC ⟨.sendAbort, some ⟨iid, reason, false⟩⟩ st
  let st2 : SCState V :=
    if st1.clientTerm.isNone then
      { st1 with clientTerm := some (.errored (.abortError reason)) }
    else st1
  cleanupSC iid st2

/-- The call of `defineStreamInvoke` for a non-stream request with a
cancellation signal that has not yet tripped (part_000 lines 58-179):
construct the response stream (registering the three per-call listeners,
lines 84-115, and attaching `onAbort` to the signal, lines 117-123), then
emit `send` (line 175). -/
def scStart (iid : String) (req : Content V) (st : SCState V) : SCState V :=
  let ls : List (EId × SCListener) :=
    busOn (.recvStreamEnd iid) (.clientReceiveStreamEnd iid)
      (busOn (.recvError iid) (.clientReceiveError iid)
        (busOn (.recv iid) (.clientReceive iid) st.listeners))
  emitSC ⟨.send, some ⟨iid, req, false⟩⟩
    { st with listeners := ls, signalListener := true }

/-- The signal trips with `reason`: the attached `onAbort` runs (it was
registered with `once: true`, and `cleanup` also detaches it). -/
def scTrip (iid : String) (reason : Content V) (st : SCState V) : SCState V :=
  if st.signalListener then scOnAbort iid reason st else st

/-- The empty client context. -/
def emptySC : SCState V := ⟨[], [], false, [], none⟩

/-- The run of claim C3: a call with a live signal starts, then the signal
trips. -/
def c3Run (iid : String) (req : Content V) (reason : Content V) : SCState V :=
  scTrip iid reason (scStart iid req emptySC)

/-- Spec-modelled variant of `scStart` for a context configured with fatal
event `fid` and no cancellation signal: the per-call fatal listener is
registered together with the three receive listeners. -/
def scStartFatal (fid : Nat) (iid : String) (req : Content V)
    (st : SCState V) : SCState V :=
  let ls : List (EId × SCListener) :=
    busOn (.fatal fid) (.clientFatal iid)
      (busOn (.recvStreamEnd iid) (.clientReceiveStreamEnd iid)
        (busOn (.recvError iid) (.clientReceiveError iid)
          (busOn (.recv iid) (.clientReceive iid) st.listeners)))
  emitSC ⟨.send, some ⟨iid, req, false⟩⟩ { st with listeners := ls }

/-- The streaming half of claim C5: a pending streaming call on a context
with fatal event `fid` registered, then the fatal event fires carrying
`{ error: e }`. -/
def c5StreamRun (fid : Nat) (iid : String) (req : Content V) (e : V) :
    SCState V :=
  emitSC ⟨.fatal fid, some ⟨"", .errObj e, false⟩⟩
    (scStartFatal fid iid req emptySC)

/-- The server-side listener closures of `defineStreamInvokeHandler`
(part_000 lines 271, 303 and 320). -/
inductive SSListener where
  | onSend
  | onSendStreamEnd
  | onSendAbort
  deriving DecidableEq

/-- A server-side synthesized request stream with its terminal state. -/
structure AStream (V : Type) where
  chunks : List (Content V)
  term : Option (CTerm V)
  deriving DecidableEq

/-- A queued microtask: a scheduled cooperative-token trip
(`scheduleAbort`, part_000 lines 231-237) or the suspended remainder of
`handleInvoke` (the `for await` pump and its `finally`), which is beyond
the horizon of the properties proved on this machine. -/
inductive SMicro (V : Type) where
  | trip (invokeId : String) (reason : Content V)
  | resume (invokeId : String)
  deriving DecidableEq

/-- State of the abort-capable streaming server. `tokens` holds the
`AbortController` objects created by `handleInvoke` (`none` while not
aborted, `some reason` once aborted); `abortControllers` holds the keys of
the `abortControllers` map; `abortReasons` is the deferred-reason table. -/
structure SSState (V : Type) where
  listeners : List (EId × SSListener)
  wire : List (Envelope V)
  handlerRuns : List (String × HPayload V)
  streamStates : List String
  streams : List (String × AStream V)
  abortControllers : List String
  tokens : List (String × Option (Content V))
  abortReasons : List (String × Content V)
  micro : List (SMicro V)
  deriving DecidableEq

/-- `controller.error(e)` on the request stream for `iid` (a terminated
controller stays as it is). -/
def errAStream (iid : String) (e : CErr V) :
    List (String × AStream V) → List (String × AStream V) :=
  updStream iid
    (fun s => if s.term.isNone then { s with term := some (.errored e) } else s)

/-- `controller.close()` on the request stream for `iid`. -/
def closeAStream (iid : String) :
    List (String × AStream V) → List (String × AStream V) :=
  updStream iid
    (fun s => if s.term.isNone then { s with term := some .closed } else s)

/-- `controller.enqueue(c)` on the request stream for `iid`. -/
def enqueueAStream (iid : String) (c : Content V) :
    List (String × AStream V) → List (String × AStream V) :=
  updStream iid (fun s => { s with chunks := s.chunks ++ [c] })

/-- The synchronous prefix of `handleInvoke` (part_000 lines 239-255),
up to the producer call and the first suspension: create the cooperative
cancellation token and store it, schedule a token trip on the next
microtask when a deferred reason is present, call the producer (logged in
`handlerRuns`), then suspend (the remainder is queued as `resume`). -/
def ssHandleInvokeStart (iid : String) (p : HPayload V) (st : SSState V) :
    SSState V :=
  let st1 : SSState V := { st with
    abortControllers := st.abortControllers ++ [iid],
    tokens := st.tokens ++ [(iid, none)] }
  let st2 : SSState V :=
    match lookupA iid st1.abortReasons with
    | some r => { st1 with micro := st1.micro ++ [SMicro.trip iid r] }
    | none => st1
  { st2 with handlerRuns := st2.handlerRuns ++ [(iid, p)],
             micro := st2.micro ++ [SMicro.resume iid] }

/-- One server listener closure, run on a delivered envelope (part_000
lines 271-360). -/
def runSSListener (l : SSListener) (env : Envelope V) (st : SSState V) :
    SSState V :=
  match l with
  | .onSend =>
    -- part_000 lines 271-301
    match env.body with
    | none => st
    | some b =>
      if b.invokeId = "" then st
      else if b.isReqStream then
        if b.invokeId ∈ st.streamStates then
          { st with streams := enqueueAStream b.invokeId b.content st.streams }
        else
          let st1 : SSState V := ssHandleInvokeStart b.invokeId
            (.stream b.invokeId)
            { st with streams := st.streams ++ [(b.invokeId, ⟨[], none⟩)],
                      streamStates := st.streamStates ++ [b.invokeId] }
          { st1 with
            streams := enqueueAStream b.invokeId b.content st1.streams }
      else
        ssHandleInvokeStart b.invokeId (.plain b.content) st
  | .onSendStreamEnd =>
    -- part_000 lines 303-318
    match env.body with
    | none => st
    | some b =>
      if b.invokeId = "" then st
      else if b.invokeId ∈ st.streamStates then
        { st with streams := closeAStream b.invokeId st.streams,
                  streamStates := st.streamStates.erase b.invokeId }
      else st
  | .onSendAbort =>
    -- part_000 lines 320-360
    match env.body with
    | none => st
    | some b =>
      if b.invokeId = "" then st
      else
        let iid := b.invokeId
        let reason := b.content
        if iid ∈ st.abortControllers then
          let st1 : SSState V :=
            { st with micro := st.micro ++ [SMicro.trip iid reason] }
          if iid ∈ st1.streamStates then
            { st1 with
              streams := errAStream iid (.abortError reason) st1.streams,
              streamStates := st1.streamStates.erase iid }
          else st1
        else
          let st1 : SSState V :=
            { st with abortReasons := st.abortReasons ++ [(iid, reason)] }
          let st2 : SSState V :=
            if iid ∈ st1.streamStates then st1
            else ssHandleInvokeStart iid (.stream iid)
              { st1 with streams := st1.streams ++ [(iid, ⟨[], none⟩)],
                         streamStates := st1.streamStates ++ [iid] }
          { st2 with
            streams := errAStream iid (.abortError reason) st2.streams,
            streamStates := st2.streamStates.erase iid }

def runMatchingSS (env : Envelope V) :
    List (EId × SSListener) → SSState V → SSState V
  | [], st => st
  | (eid, l) :: rest, st =>
    runMatchingSS env rest
      (if eid = env.eid then runSSListener l env st else st)

/-- Bus `emit` on the server context. -/
def emitSS (env : Envelope V) (st : SSState V) : SSState V :=
  runMatchingSS env st.listeners { st with wire := st.wire ++ [env] }

/-- Run the next queued microtask.  A scheduled trip aborts the token with
the captured reason (a token already aborted keeps its first reason). -/
def ssStep (st : SSState V) : SSState V :=
  match st.micro with
  | [] => st
  | .trip iid r :: rest =>
    { st with micro := rest,
              tokens := updStream iid (fun t => if t.isNone then some r else t)
                st.tokens }
  | .resume _ :: rest => { st with micro := rest }

/-- A context on which `defineStreamInvokeHandler` has registered one
producer: the three listeners of part_000 lines 271, 303 and 320, in
registration order. -/
def ssInit : SSState V :=
  let ls : List (EId × SSListener) :=
    busOn .sendAbort .onSendAbort
      (busOn .sendStreamEnd .onSendStreamEnd (busOn .send .onSend []))
  ⟨ls, [], [], [], [], [], [], [], []⟩

/-- The run of claim C4: a `send-abort` envelope arrives before any other
envelope of its invocation (no cancellation token exists yet). -/
def c4Run (iid : String) (reason : Content V) : SSState V :=
  emitSS ⟨.sendAbort, some ⟨iid, reason, false⟩⟩ ssInit

end StreamAbort

namespace RemoteMethods

/-!
## The remote-methods payload walks (`src/unnamed/part_001`)

`serializeInvokeFunctionPayload` (lines 123-198) and
`deserializeInvokeFunctionPayload` (lines 200-275) walk a JavaScript value.
The value domain is modelled by the mutual inductive `JVal`: primitives
(`prim`, covering numbers, booleans, `null`, `undefined`), strings,
function values, arrays, and objects tagged with their prototype
(`Object.prototype`, `null`, or any other prototype — the last making the
object non-plain for `isPlainObject`, lines 92-99).

Values are trees here; the `seen` `WeakMap` of the source is keyed by
object identity and therefore never fires on a tree-shaped input, so it is
omitted.  The counter threading mirrors the mutable `functionCount`; the
`nanoid()` inside a generated stub tag is modelled as an injective function
of the serialized function's identity.
-/

/-- Prototypes distinguishable by the walks. -/
inductive JProto where
  | objectProto
  | nullProto
  | otherProto
  deriving DecidableEq

/-- Function identities: a host function value, or a rehydrated remote stub
(the unary invoke client `defineInvoke(ctx, defineInvokeEventa(tag))`
returned by the deserializer, line 238). -/
inductive FuncId where
  | host (n : Nat)
  | remote (tag : String)
  deriving DecidableEq

mutual
inductive JVal where
  | prim (n : Nat)
  | str (s : String)
  | func (f : FuncId)
  | arr (elems : JArr)
  | obj (proto : JProto) (fields : JFields)
inductive JArr where
  | anil
  | acons (hd : JVal) (tl : JArr)
inductive JFields where
  | fnil
  | fcons (key : String) (val : JVal) (tl : JFields)
end

deriving instance DecidableEq for JVal, JArr, JFields

/-- `tag.startsWith(prefixString)` (the tag filter of the deserializer),
expressed over the character lists so that it evaluates by kernel
reduction. -/
def strStarts (t pre : String) : Bool :=
  pre.data.isPrefixOf t.data

/-- Own-property lookup (JavaScript object keys are unique). -/
def getField (key : String) : JFields → Option JVal
  | .fnil => none
  | .fcons k v rest => if k = key then some v else getField key rest

/-- `key in value` for own keys. -/
def hasKey (key : String) (fs : JFields) : Bool :=
  (getField key fs).isSome

/-- `isPlainObject` (part_001 lines 92-99): an object whose prototype is
`Object.prototype` or `null`. -/
def isPlainObject : JVal → Bool
  | .obj .otherProto _ => false
  | .obj _ _ => true
  | _ => false

/-- `isInvokeFunctionStubPayload` (part_001 lines 107-117), returning the
stub's tag when the value is a plain object whose `__eventaInvoke` value is
an object with a string `tag`. -/
def stubTag : JVal → Option String
  | .obj .otherProto _ => none
  | .obj _ fs =>
    match getField "__eventaInvoke" fs with
    | some (.obj _ fs2) =>
      match getField "tag" fs2 with
      | some (.str t) => some t
      | _ => none
    | _ => none
  | _ => none

/-- The normalized function-stub options (part_001 lines 9-17, 32-39):
`onDisallowedTag` is the boolean `throwOnDisallowedTag`
(`'throw'` versus `'ignore'`). -/
structure StubOptions where
  allow : Bool
  maxDepth : Nat
  maxFunctions : Nat
  tagPref : String
  throwOnDisallowedTag : Bool
  strict : Bool
  deriving DecidableEq

/-- `normalizeFunctionStubOptions` applied to a bare boolean: the defaults
of `DEFAULT_FUNCTION_STUB_OPTIONS` (part_001 lines 32-39) with the given
master switch. -/
def defaultsWith (allow : Bool) : StubOptions :=
  ⟨allow, 32, 32, "eventa-invoke-fn-", false, false⟩

/-- The tag generated for a serialized function:
`` `${options.tagPrefix}${nanoid()}` `` with `nanoid` modelled as an
injective function of the function's identity. -/
def stubTagFor (o : StubOptions) : FuncId → String
  | .host n => o.tagPref ++ Nat.repr n
  | .remote t => o.tagPref ++ "r" ++ t

/-- The stub descriptor `{ __eventaInvoke: { tag } }` returned for a
function (part_001 line 150).  Both mapping objects are ordinary object
literals, so they carry `Object.prototype`. -/
def stubNode (o : StubOptions) (f : FuncId) : JVal :=
  .obj .objectProto
    (.fcons "__eventaInvoke"
      (.obj .objectProto (.fcons "tag" (.str (stubTagFor o f)) .fnil))
      .fnil)

mutual
/-- The `walk` of `serializeInvokeFunctionPayload` (part_001 lines
136-188): the input value, the current depth and the current
`functionCount`; on success the rebuilt value and the updated count. -/
def serWalk (o : StubOptions) : JVal → Nat → Nat → Except Unit (JVal × Nat)
  | .func f, _, c =>
    if o.maxFunctions ≤ c then .error () else .ok (stubNode o f, c + 1)
  | .prim n, _, c => .ok (.prim n, c)
  | .str s, _, c => .ok (.str s, c)
  | .arr xs, d, c =>
    if o.maxDepth < d then .error ()
    else
      match serWalkArr o xs d c with
      | .error e => .error e
      | .ok (xs2, c2) => .ok (.arr xs2, c2)
  | .obj p fs, d, c =>
    if o.maxDepth < d then .error ()
    else if p = .otherProto then .ok (.obj p fs, c)
    else
      match serWalkFields o fs d c with
      | .error e => .error e
      | .ok (fs2, c2) => .ok (.obj .nullProto fs2, c2)

def serWalkArr (o : StubOptions) :
    JArr → Nat → Nat → Except Unit (JArr × Nat)
  | .anil, _, c => .ok (.anil, c)
  | .acons x rest, d, c =>
    match serWalk o x (d + 1) c with
    | .error e => .error e
    | .ok (x2, c2) =>
      match serWalkArr o rest d c2 with
      | .error e => .error e
      | .ok (rest2, c3) => .ok (.acons x2 rest2, c3)

def serWalkFields (o : StubOptions) :
    JFields → Nat → Nat → Except Unit (JFields × Nat)
  | .fnil, _, c => .ok (.fnil, c)
  | .fcons k v rest, d, c =>
    match serWalk o v (d + 1) c with
    | .error e => .error e
    | .ok (v2, c2) =>
      match serWalkFields o rest d c2 with
      | .error e => .error e
      | .ok (rest2, c3) => .ok (.fcons k v2 rest2, c3)
end

mutual
/-- The `walk` of `deserializeInvokeFunctionPayload` (part_001 lines
212-272). -/
def deserWalk (o : StubOptions) : JVal → Nat → Nat → Except Unit (JVal × Nat)
  | .prim n, _, c => .ok (.prim n, c)
  | .str s, _, c => .ok (.str s, c)
  | .func f, _, c => .ok (.func f, c)
  | .arr xs, d, c =>
    if o.maxDepth < d then .error ()
    else
      match deserWalkArr o xs d c with
      | .error e => .error e
      | .ok (xs2, c2) => .ok (.arr xs2, c2)
  | .obj p fs, d, c =>
    if o.maxDepth < d then .error ()
    else
      match stubTag (.obj p fs) with
      | some t =>
        if o.maxFunctions ≤ c then .error ()
        else if o.tagPref ≠ "" ∧ strStarts t o.tagPref = false then
          if o.throwOnDisallowedTag then .error () else .ok (.obj p fs, c)
        else .ok (.func (.remote t), c + 1)
      | none =>
        if o.strict ∧ isPlainObject (.obj p fs) ∧ hasKey "__eventaInvoke" fs
        then .error ()
        else if p = .otherProto then .ok (.obj p fs, c)
        else
          match deserWalkFields o fs d c with
          | .error e => .error e
          | .ok (fs2, c2) => .ok (.obj .nullProto fs2, c2)

def deserWalkArr (o : StubOptions) :
    JArr → Nat → Nat → Except Unit (JArr × Nat)
  | .anil, _, c => .ok (.anil, c)
  | .acons x rest, d, c =>
    match deserWalk o x (d + 1) c with
    | .error e => .error e
    | .ok (x2, c2) =>
      match deserWalkArr o rest d c2 with
      | .error e => .error e
      | .ok (rest2, c3) => .ok (.acons x2 rest2, c3)

def deserWalkFields (o : StubOptions) :
    JFields → Nat → Nat → Except Unit (JFields × Nat)
  | .fnil, _, c => .ok (.fnil, c)
  | .fcons k v rest, d, c =>
    match deserWalk o v (d + 1) c with
    | .error e => .error e
    | .ok (v2, c2) =>
      match deserWalkFields o rest d c2 with
      | .error e => .error e
      | .ok (rest2, c3) => .ok (.fcons k v2 rest2, c3)
end

/-- `serializeInvokeFunctionPayload` (part_001 lines 123-198): identity
when stubs are not allowed, otherwise the walk from depth 0 and count 0.
The returned count is the number of registered stub handlers (one disposer
each). -/
def serializeInvokeFunctionPayload (o : StubOptions) (v : JVal) :
    Except Unit (JVal × Nat) :=
  if o.allow = false then .ok (v, 0) else serWalk o v 0 0

/-- `deserializeInvokeFunctionPayload` (part_001 lines 200-275). -/
def deserializeInvokeFunctionPayload (o : StubOptions) (v : JVal) :
    Except Unit (JVal × Nat) :=
  if o.allow = false then .ok (v, 0) else deserWalk o v 0 0

/-- The remote invoke wrapper returned by `withRemoteMethods().defineInvoke`
(part_001 lines 340-394), up to the base invoke: serialize the request; on
a serializer throw the wrapper returns an already-rejected promise before
calling the base invoke. -/
def remoteInvoke (o : StubOptions) (req : JVal) : Except Unit JVal :=
  if o.allow = false then .ok req
  else
    match serializeInvokeFunctionPayload o req with
    | .error e => .error e
    | .ok (w, _) => .ok w

/-- The contents of the `send` emissions performed for a remote invoke
call: the base invoke emits one `send` with the serialized value, and none
at all when the serializer threw. -/
def remoteInvokeEmits (o : StubOptions) (req : JVal) : List JVal :=
  match remoteInvoke o req with
  | .error _ => []
  | .ok w => [w]

mutual
/-- The function values the serializer's walk encounters (functions inside
passed-through non-plain objects are never visited). -/
def serFnCount : JVal → Nat
  | .prim _ => 0
  | .str _ => 0
  | .func _ => 1
  | .arr xs => serFnCountArr xs
  | .obj p fs => if p = .otherProto then 0 else serFnCountFields fs

def serFnCountArr : JArr → Nat
  | .anil => 0
  | .acons x rest => serFnCount x + serFnCountArr rest

def serFnCountFields : JFields → Nat
  | .fnil => 0
  | .fcons _ v rest => serFnCount v + serFnCountFields rest
end

mutual
/-- Whether the serializer's walk started at depth `d` reaches an
object-typed node whose depth check `depth > maxDepth` fires (`m` is the
cap).  Children of passed-through non-plain objects are never visited;
functions are replaced before any depth check. -/
def serTooDeep (m : Nat) : JVal → Nat → Bool
  | .prim _, _ => false
  | .str _, _ => false
  | .func _, _ => false
  | .arr xs, d => decide (m < d) || serTooDeepArr m xs d
  | .obj p fs, d =>
    decide (m < d) ||
      (if p = .otherProto then false else serTooDeepFields m fs d)

def serTooDeepArr (m : Nat) : JArr → Nat → Bool
  | .anil, _ => false
  | .acons x rest, d => serTooDeep m x (d + 1) || serTooDeepArr m rest d

def serTooDeepFields (m : Nat) : JFields → Nat → Bool
  | .fnil, _ => false
  | .fcons _ v rest, d => serTooDeep m v (d + 1) || serTooDeepFields m rest d
end

mutual
/-- The recognized stub descriptors the deserializer's walk rehydrates
(well-formed stubs whose tag passes the configured tag filter).  Nodes
inside ignored stubs or non-plain objects are never visited. -/
def deserCount (o : StubOptions) : JVal → Nat
  | .prim _ => 0
  | .str _ => 0
  | .func _ => 0
  | .arr xs => deserCountArr o xs
  | .obj p fs =>
    match stubTag (.obj p fs) with
    | some t =>
      if o.tagPref ≠ "" ∧ strStarts t o.tagPref = false then 0 else 1
    | none => if p = .otherProto then 0 else deserCountFields o fs

def deserCountArr (o : StubOptions) : JArr → Nat
  | .anil => 0
  | .acons x rest => deserCount o x + deserCountArr o rest

def deserCountFields (o : StubOptions) : JFields → Nat
  | .fnil => 0
  | .fcons _ v rest => deserCount o v + deserCountFields o rest
end

mutual
/-- Whether the deserializer's walk reaches a well-formed stub descriptor
(any stub encountered while the counter is at the cap is a hard error,
before the tag filter runs). -/
def deserHitsStub : JVal → Bool
  | .prim _ => false
  | .str _ => false
  | .func _ => false
  | .arr xs => deserHitsStubArr xs
  | .obj p fs =>
    match stubTag (.obj p fs) with
    | some _ => true
    | none => if p = .otherProto then false else deserHitsStubFields fs

def deserHitsStubArr : JArr → Bool
  | .anil => false
  | .acons x rest => deserHitsStub x || deserHitsStubArr rest

def deserHitsStubFields : JFields → Bool
  | .fnil => false
  | .fcons _ v rest => deserHitsStub v || deserHitsStubFields rest
end

mutual
/-- Whether the deserializer's walk reaches an object-typed node whose
depth check fires (the depth check precedes the stub branch, so stub nodes
themselves are checked, but nothing below a stub or a non-plain object is
visited). -/
def deserTooDeep (m : Nat) : JVal → Nat → Bool
  | .prim _, _ => false
  | .str _, _ => false
  | .func _, _ => false
  | .arr xs, d => decide (m < d) || deserTooDeepArr m xs d
  | .obj p fs, d =>
    decide (m < d) ||
      (match stubTag (.obj p fs) with
       | some _ => false
       | none =>
         if p = .otherProto then false else deserTooDeepFields m fs d)

def deserTooDeepArr (m : Nat) : JArr → Nat → Bool
  | .anil, _ => false
  | .acons x rest, d => deserTooDeep m x (d + 1) || deserTooDeepArr m rest d

def deserTooDeepFields (m : Nat) : JFields → Nat → Bool
  | .fnil, _ => false
  | .fcons _ v rest, d =>
    deserTooDeep m v (d + 1) || deserTooDeepFields m rest d
end

mutual
/-- Whether the deserializer's walk reaches a plain object that carries the
`__eventaInvoke` key with a malformed descriptor
(`hasInvokeFunctionStubKey` without `isInvokeFunctionStubPayload`). -/
def deserHasMalformed : JVal → Bool
  | .prim _ => false
  | .str _ => false
  | .func _ => false
  | .arr xs => deserHasMalformedArr xs
  | .obj p fs =>
    match stubTag (.obj p fs) with
    | some _ => false
    | none =>
      if p = .otherProto then false
      else hasKey "__eventaInvoke" fs || deserHasMalformedFields fs

def deserHasMalformedArr : JArr → Bool
  | .anil => false
  | .acons x rest => deserHasMalformed x || deserHasMalformedArr rest

def deserHasMalformedFields : JFields → Bool
  | .fnil => false
  | .fcons _ v rest => deserHasMalformed v || deserHasMalformedFields rest
end

mutual
/-- Inputs built from primitives, strings, arrays and plain objects only
(no function values, no non-plain objects, no `__eventaInvoke` keys). -/
def plainish : JVal → Bool
  | .prim _ => true
  | .str _ => true
  | .func _ => false
  | .arr xs => plainishArr xs
  | .obj p fs =>
    decide (p ≠ JProto.otherProto) && !hasKey "__eventaInvoke" fs &&
      plainishFields fs

def plainishArr : JArr → Bool
  | .anil => true
  | .acons x rest => plainish x && plainishArr rest

def plainishFields : JFields → Bool
  | .fnil => true
  | .fcons _ v rest => plainish v && plainishFields rest
end

mutual
/-- The rebuilt value the walks produce on `plainish` inputs: the same tree
with every mapping object materialized on a null prototype. -/
def nullify : JVal → JVal
  | .prim n => .prim n
  | .str s => .str s
  | .func f => .func f
  | .arr xs => .arr (nullifyArr xs)
  | .obj _ fs => .obj .nullProto (nullifyFields fs)

def nullifyArr : JArr → JArr
  | .anil => .anil
  | .acons x rest => .acons (nullify x) (nullifyArr rest)

def nullifyFields : JFields → JFields
  | .fnil => .fnil
  | .fcons k v rest => .fcons k (nullify v) (nullifyFields rest)
end

mutual
/-- Whether the object graph of a value contains a mapping object whose
prototype is `Object.prototype`. -/
def reachesObjectProto : JVal → Bool
  | .prim _ => false
  | .str _ => false
  | .func _ => false
  | .arr xs => reachesObjectProtoArr xs
  | .obj p fs =>
    decide (p = JProto.objectProto) || reachesObjectProtoFields fs

def reachesObjectProtoArr : JArr → Bool
  | .anil => false
  | .acons x rest => reachesObjectProto x || reachesObjectProtoArr rest

def reachesObjectProtoFields : JFields → Bool
  | .fnil => false
  | .fcons _ v rest => reachesObjectProto v || reachesObjectProtoFields rest
end

end RemoteMethods

/-!
## Theorems

Each claim of the specification is settled by one theorem below (with a
witness instantiation when the theorem carries hypotheses, and a
counterexample where the claim fails as stated).
-/

/-- C1.  For every unary invoke call on a family with one registered
handler and a non-stream request: the promise settles exactly once (the
settlement log has exactly one entry for the call); when the handler
returns `r` the promise is fulfilled with the `content` of the first
`receive-<id>` envelope whose `invokeId` matches, namely `r`; when the
handler throws `e` the server emits `receive-error-<id>` carrying
`{ error: e }` and the promise rejects with exactly that value `e`; and
after settlement the call's `receive`/`receive-error` listeners and its
pending-table entries are gone (only the server's two listeners remain). -/
theorem c1_unary_invoke_round_trip {V : Type}
    (h : HPayload V → Except V V) (iid : String) (req : V)
    (hiid : iid ≠ "") :
    (Unary.c1Run h iid req).settled =
        [(iid, match h (.plain (.val req)) with
          | .ok r => .fulfilled (.val r)
          | .error e => .rejected (.val e))] ∧
      (Unary.c1Run h iid req).wire =
        ⟨.send, some ⟨iid, .val req, false⟩⟩ ::
          (match h (.plain (.val req)) with
           | .ok r => [⟨.recv iid, some ⟨iid, .val r, false⟩⟩]
           | .error e => [⟨.recvError iid, some ⟨iid, .errObj e, false⟩⟩]) ∧
      (Unary.c1Run h iid req).resolvers = [] ∧
      (Unary.c1Run h iid req).rejectors = [] ∧
      (Unary.c1Run h iid req).listeners =
        [(.send, .serverOnSend), (.sendStreamEnd, .serverOnSendStreamEnd)] ∧
      (Unary.c1Run h iid req).tasks = [] := by
  cases hr : h (.plain (.val req)) with
  | ok r =>
    simp [Unary.c1Run, Unary.invokeCall, Unary.serverState, Unary.emptyU,
      Unary.busOnSt, busOn, Unary.emitU, Unary.runMatching,
      Unary.runUListener, Unary.uStep, hr, offAll, Unary.offAllSt, hiid]
  | error e =>
    simp [Unary.c1Run, Unary.invokeCall, Unary.serverState, Unary.emptyU,
      Unary.busOnSt, busOn, Unary.emitU, Unary.runMatching,
      Unary.runUListener, Unary.uStep, hr, offAll, Unary.offAllSt, hiid,
      errField]

/-- Witness for C1 at a concrete input. -/
theorem c1_unary_invoke_round_trip_witness :
    ("i" : String) ≠ "" ∧
      ((Unary.c1Run (V := Nat) (fun _ => .ok 42) "i" 7).settled =
        [("i", .fulfilled (.val 42))] ∧
      (Unary.c1Run (V := Nat) (fun _ => .ok 42) "i" 7).wire =
        ⟨.send, some ⟨"i", .val 7, false⟩⟩ ::
          [⟨.recv "i", some ⟨"i", .val 42, false⟩⟩] ∧
      (Unary.c1Run (V := Nat) (fun _ => .ok 42) "i" 7).resolvers = [] ∧
      (Unary.c1Run (V := Nat) (fun _ => .ok 42) "i" 7).rejectors = [] ∧
      (Unary.c1Run (V := Nat) (fun _ => .ok 42) "i" 7).listeners =
        [(.send, .serverOnSend), (.sendStreamEnd, .serverOnSendStreamEnd)] ∧
      (Unary.c1Run (V := Nat) (fun _ => .ok 42) "i" 7).tasks = []) :=
  ⟨by decide, c1_unary_invoke_round_trip (fun _ => .ok 42) "i" 7 (by decide)⟩


/-- C10.  For every inbound `send` or `send-stream-end` envelope delivered
to a registered unary invoke server whose body is absent or whose
`body.invokeId` is empty: the server listeners return without any effect —
the state (handler-run log, wire emissions beyond the delivery itself, and
the per-invocation stream-state table) is unchanged. -/
theorem c10_guarded_server_ignores_malformed_envelopes {V : Type}
    (st : Unary.UState V) (env : Envelope V)
    (hbad : env.body = none ∨ ∃ b, env.body = some b ∧ b.invokeId = "") :
    Unary.runUListener .serverOnSend env st = st ∧
      Unary.runUListener .serverOnSendStreamEnd env st = st := by
  rcases hbad with hnone | ⟨b, hsome, hempty⟩
  · simp [Unary.runUListener, hnone]
  · simp [Unary.runUListener, hsome, hempty]

/-- Witness for C10 at a concrete input. -/
theorem c10_guarded_server_ignores_malformed_envelopes_witness :
    Unary.runUListener (V := Nat) .serverOnSend
        ⟨.send, some ⟨"", .val 3, true⟩⟩ Unary.serverState =
      Unary.serverState ∧
    Unary.runUListener (V := Nat) .serverOnSendStreamEnd
        ⟨.send, some ⟨"", .val 3, true⟩⟩ Unary.serverState =
      Unary.serverState :=
  c10_guarded_server_ignores_malformed_envelopes Unary.serverState
    ⟨.send, some ⟨"", .val 3, true⟩⟩ (Or.inr ⟨_, rfl, rfl⟩)

/-- C9.  Evaluation of `undefineInvokeHandler` at the failing input: with
handlers 1 and 2 registered, the targeted removal of handler 1 returns
`true` and leaves handler 2 running, as the claim states; but because the
targeted branch deletes the whole `invokeHandlers` entry, the subsequent
blanket `undefineInvokeHandler(ctx, family)` returns `false` and handler
2's listeners are never removed — it still runs.  (With nothing registered
the call does return `false`.) -/
theorem c9_targeted_removal_breaks_blanket_removal :
    (Registry.undefineInvokeHandler (some 1)
        (Registry.defineInvokeHandler 2
          (Registry.defineInvokeHandler 1 Registry.emptyR))).1 = true ∧
    Registry.runningHandlers
      (Registry.undefineInvokeHandler (some 1)
        (Registry.defineInvokeHandler 2
          (Registry.defineInvokeHandler 1 Registry.emptyR))).2 = [2] ∧
    (Registry.undefineInvokeHandler none
      (Registry.undefineInvokeHandler (some 1)
        (Registry.defineInvokeHandler 2
          (Registry.defineInvokeHandler 1 Registry.emptyR))).2).1 = false ∧
    Registry.runningHandlers
      (Registry.undefineInvokeHandler none
        (Registry.undefineInvokeHandler (some 1)
          (Registry.defineInvokeHandler 2
            (Registry.defineInvokeHandler 1 Registry.emptyR))).2).2 = [2] ∧
    Registry.undefineInvokeHandler none Registry.emptyR =
      (false, Registry.emptyR) := by
  decide

/-- C6 counterexample.  For the streaming server, a `send-stream-end`
envelope arriving when no input controller exists is ignored entirely: no
controller is created, no handler is invoked, nothing but the wire log
changes — refuting the claim that the streaming server, like the unary one,
synthesizes an empty input stream and hands it to the handler. -/
theorem c6_streaming_server_drops_unmatched_stream_end :
    StreamV0.emitS0 (V := Nat) ⟨.sendStreamEnd, some ⟨"i", .undefined, false⟩⟩
        StreamV0.serverState0 =
      { StreamV0.serverState0 with
        wire := [⟨.sendStreamEnd, some ⟨"i", .undefined, false⟩⟩] } := by
  decide

/-- C6 (amended).  On `send-stream-end`: the unary server closes and drops
an existing controller, and when none exists it creates one, hands the
stream to the handler and closes it (so the unary handler always observes
"some chunks then end" or "empty then end"); the streaming server closes
and drops an existing controller but ignores the envelope when no
controller exists (no handler invocation, no state change). -/
theorem c6_stream_end_closes_or_synthesizes {V : Type} (iid : String)
    (c : Content V) (h : HPayload V → Except V V) (hiid : iid ≠ "") :
    (Unary.uStep h (Unary.emitU ⟨.sendStreamEnd, some ⟨iid, .undefined, false⟩⟩
        Unary.serverState)).handlerRuns = [(iid, .stream iid)] ∧
    (Unary.uStep h (Unary.emitU ⟨.sendStreamEnd, some ⟨iid, .undefined, false⟩⟩
        Unary.serverState)).streams = [(iid, ⟨[], true⟩)] ∧
    (Unary.uStep h (Unary.emitU ⟨.sendStreamEnd, some ⟨iid, .undefined, false⟩⟩
        Unary.serverState)).streamStates = [] ∧
    (Unary.uStep h (Unary.emitU ⟨.sendStreamEnd, some ⟨iid, .undefined, false⟩⟩
        (Unary.emitU ⟨.send, some ⟨iid, c, true⟩⟩
          Unary.serverState))).handlerRuns = [(iid, .stream iid)] ∧
    (Unary.uStep h (Unary.emitU ⟨.sendStreamEnd, some ⟨iid, .undefined, false⟩⟩
        (Unary.emitU ⟨.send, some ⟨iid, c, true⟩⟩
          Unary.serverState))).streams = [(iid, ⟨[c], true⟩)] ∧
    (Unary.uStep h (Unary.emitU ⟨.sendStreamEnd, some ⟨iid, .undefined, false⟩⟩
        (Unary.emitU ⟨.send, some ⟨iid, c, true⟩⟩
          Unary.serverState))).streamStates = [] ∧
    (StreamV0.emitS0 ⟨.sendStreamEnd, some ⟨iid, .undefined, false⟩⟩
        (StreamV0.emitS0 ⟨.send, some ⟨iid, c, true⟩⟩
          StreamV0.serverState0)).streams = [(iid, ⟨[c], true⟩)] ∧
    (StreamV0.emitS0 ⟨.sendStreamEnd, some ⟨iid, .undefined, false⟩⟩
        (StreamV0.emitS0 ⟨.send, some ⟨iid, c, true⟩⟩
          StreamV0.serverState0)).streamStates = [] ∧
    (∀ st : StreamV0.S0State V, iid ∉ st.streamStates →
      StreamV0.runS0Listener .serverOnSendStreamEnd
        ⟨.sendStreamEnd, some ⟨iid, .undefined, false⟩⟩ st = st) := by
  refine ⟨?_, ?_, ?_, ?_, ?_, ?_, ?_, ?_, ?_⟩
  all_goals first
  | (intro st hst
     simp [StreamV0.runS0Listener, hiid, hst])
  | simp [Unary.uStep, Unary.emitU, Unary.runMatching, Unary.runUListener,
      Unary.serverState, Unary.emptyU, Unary.busOnSt, busOn, hiid,
      enqueueChunk, closeStream, updStream, Unary.offAllSt, offAll,
      StreamV0.emitS0, StreamV0.runMatching0, StreamV0.runS0Listener,
      StreamV0.serverState0, StreamV0.emptyS0]
  all_goals cases h (.stream iid) <;> simp

/-- Witness for C6 (amended) at a concrete input. -/
theorem c6_stream_end_closes_or_synthesizes_witness :
    (Unary.uStep (V := Nat) (fun _ => .ok 0)
      (Unary.emitU ⟨.sendStreamEnd, some ⟨"i", .undefined, false⟩⟩
        Unary.serverState)).handlerRuns = [("i", .stream "i")] :=
  (c6_stream_end_closes_or_synthesizes "i" (.val 5) (fun _ => .ok 0)
    (by decide)).1

/-- C4.  When `send-abort-<id>` arrives at the streaming server before any
handler has started for that invoke id: the reason is stashed in the
deferred-reason table; an input stream is synthesized, handed to the
handler, and immediately errored with an `AbortError` carrying the reason
(so the handler observes an empty-and-aborted input); and the handler's
cooperative cancellation token exists but is not yet tripped at the end of
the dispatch — it is tripped with that reason by the first queued
microtask, ahead of the handler's own resumption. -/
theorem c4_deferred_abort_schedules_token_trip {V : Type} (iid : String)
    (reason : Content V) (hiid : iid ≠ "") :
    (StreamAbort.c4Run iid reason).abortReasons = [(iid, reason)] ∧
      (StreamAbort.c4Run iid reason).streams =
        [(iid, ⟨[], some (.errored (.abortError reason))⟩)] ∧
      (StreamAbort.c4Run iid reason).streamStates = [] ∧
      (StreamAbort.c4Run iid reason).handlerRuns = [(iid, .stream iid)] ∧
      (StreamAbort.c4Run iid reason).tokens = [(iid, none)] ∧
      (StreamAbort.c4Run iid reason).micro =
        [.trip iid reason, .resume iid] ∧
      (StreamAbort.ssStep (StreamAbort.c4Run iid reason)).tokens =
        [(iid, some reason)] := by
  simp [StreamAbort.c4Run, StreamAbort.ssInit, busOn, StreamAbort.emitSS,
    StreamAbort.runMatchingSS, StreamAbort.runSSListener,
    StreamAbort.ssHandleInvokeStart, StreamAbort.errAStream,
    StreamAbort.ssStep, lookupA, updStream, hiid]

/-- Witness for C4 at a concrete input. -/
theorem c4_deferred_abort_schedules_token_trip_witness :
    (StreamAbort.c4Run (V := Nat) "i" (.val 7)).abortReasons =
      [("i", .val 7)] :=
  (c4_deferred_abort_schedules_token_trip "i" (.val 7) (by decide)).1

/-- C3.  For a streaming invoke call with a cancellation signal that trips
after the call starts: the client emits `send-abort` carrying the signal's
reason; the response sequence terminates with an `AbortError` carrying that
reason; the per-call `receive`/`receive-error`/`receive-stream-end`
listeners and the signal subscription are all removed; and afterwards any
further `receive`, `receive-error` or `receive-stream-end` envelope for
that invoke id changes nothing beyond the wire log (no per-call callback
runs). -/
theorem c3_signal_trip_aborts_stream_call {V : Type} (iid : String)
    (req reason : Content V) :
    (StreamAbort.c3Run iid req reason).wire =
        [⟨.send, some ⟨iid, req, false⟩⟩,
         ⟨.sendAbort, some ⟨iid, reason, false⟩⟩] ∧
      (StreamAbort.c3Run iid req reason).clientTerm =
        some (.errored (.abortError reason)) ∧
      (StreamAbort.c3Run iid req reason).listeners = [] ∧
      (StreamAbort.c3Run iid req reason).signalListener = false ∧
      ∀ env : Envelope V,
        env.eid = .recv iid ∨ env.eid = .recvError iid ∨
            env.eid = .recvStreamEnd iid →
          StreamAbort.emitSC env (StreamAbort.c3Run iid req reason) =
            { StreamAbort.c3Run iid req reason with
              wire := (StreamAbort.c3Run iid req reason).wire ++ [env] } := by
  have hL : (StreamAbort.c3Run iid req reason).listeners = [] := by
    simp [StreamAbort.c3Run, StreamAbort.scStart, StreamAbort.scTrip,
      StreamAbort.scOnAbort, StreamAbort.emitSC, StreamAbort.runMatchingSC,
      StreamAbort.runSCListener, StreamAbort.cleanupSC, StreamAbort.emptySC,
      busOn, offAll]
  refine ⟨?_, ?_, hL, ?_, ?_⟩
  · simp [StreamAbort.c3Run, StreamAbort.scStart, StreamAbort.scTrip,
      StreamAbort.scOnAbort, StreamAbort.emitSC, StreamAbort.runMatchingSC,
      StreamAbort.runSCListener, StreamAbort.cleanupSC, StreamAbort.emptySC,
      busOn, offAll]
  · simp [StreamAbort.c3Run, StreamAbort.scStart, StreamAbort.scTrip,
      StreamAbort.scOnAbort, StreamAbort.emitSC, StreamAbort.runMatchingSC,
      StreamAbort.runSCListener, StreamAbort.cleanupSC, StreamAbort.emptySC,
      busOn, offAll]
  · simp [StreamAbort.c3Run, StreamAbort.scStart, StreamAbort.scTrip,
      StreamAbort.scOnAbort, StreamAbort.emitSC, StreamAbort.runMatchingSC,
      StreamAbort.runSCListener, StreamAbort.cleanupSC, StreamAbort.emptySC,
      busOn, offAll]
  · intro env _
    simp [StreamAbort.emitSC, hL, StreamAbort.runMatchingSC]

/-- Witness for C3 at a concrete input. -/
theorem c3_signal_trip_aborts_stream_call_witness :
    (StreamAbort.c3Run (V := Nat) "i" (.val 1) (.val 5)).clientTerm =
      some (.errored (.abortError (.val 5))) :=
  (c3_signal_trip_aborts_stream_call "i" (.val 1) (.val 5)).2.1

set_option maxHeartbeats 1000000 in
/-- C5.  Fatal-event registration is additive and deduplicating, and when a
registered fatal event fires carrying `{ error: e }`, every pending unary
call on the context rejects with `e` (in call order) and every pending
streaming call errors with `e`, with all their per-call listeners removed
and the pending tables emptied.  The rejection wiring inside the invoke
clients is modelled from the spec (§4.6); `registerInvokeAbortEventListeners`
itself is embedded from its source. -/
theorem c5_fatal_event_rejects_pending_calls {V : Type} (fid m n : Nat)
    (cfg : List Nat) (e : V) (iid1 iid2 : String) (req1 req2 : Content V)
    (hne : iid1 ≠ iid2) :
    (m ∈ registerInvokeAbortEventListeners n cfg ↔ m = n ∨ m ∈ cfg) ∧
      (Unary.c5Run fid iid1 iid2 req1 req2 e).settled =
        [(iid1, .rejected (.val e)), (iid2, .rejected (.val e))] ∧
      (Unary.c5Run fid iid1 iid2 req1 req2 e).resolvers = [] ∧
      (Unary.c5Run fid iid1 iid2 req1 req2 e).rejectors = [] ∧
      (Unary.c5Run fid iid1 iid2 req1 req2 e).listeners = [] ∧
      (StreamAbort.c5StreamRun fid iid1 req1 e).clientTerm =
        some (.errored (.wire (.val e))) ∧
      (StreamAbort.c5StreamRun fid iid1 req1 e).listeners = [] := by
  have hne2 : iid2 ≠ iid1 := Ne.symm hne
  refine ⟨?_, ?_⟩
  · by_cases hm : n ∈ cfg
    · simp only [registerInvokeAbortEventListeners, if_pos hm]
      constructor
      · exact fun h => Or.inr h
      · rintro (rfl | h)
        · exact hm
        · exact h
    · simp [registerInvokeAbortEventListeners, hm, or_comm]
  · simp [Unary.c5Run, Unary.invokeCall, Unary.emptyU, Unary.busOnSt, busOn,
      Unary.emitU, Unary.runMatching, Unary.runUListener, Unary.offAllSt,
      offAll, offOne, errField, hne, hne2,
      StreamAbort.c5StreamRun, StreamAbort.scStartFatal, StreamAbort.emptySC,
      StreamAbort.emitSC, StreamAbort.runMatchingSC, StreamAbort.runSCListener,
      StreamAbort.cleanupSC]

/-- Witness for C5 at a concrete input. -/
theorem c5_fatal_event_rejects_pending_calls_witness :
    (Unary.c5Run (V := Nat) 0 "a" "b" (.val 1) (.val 2) 99).settled =
      [("a", .rejected (.val 99)), ("b", .rejected (.val 99))] :=
  (c5_fatal_event_rejects_pending_calls 0 1 1 [] 99 "a" "b" (.val 1)
    (.val 2) (by decide)).2.1

/-- The server's yield loop on a live call: with the post-call bus registry
and a live response stream, each yielded value appends one `receive-<id>`
emission and one enqueued chunk, in order. -/
theorem emitYields_appends {V : Type} (iid : String) (ys : List V) :
    ∀ st : StreamV0.S0State V,
      st.listeners = StreamV0.fullListeners iid → st.clientTerm = none →
      StreamV0.emitYields iid ys st =
        { st with
          wire := st.wire ++
            ys.map (fun y => ⟨.recv iid, some ⟨iid, .val y, false⟩⟩),
          clientChunks := st.clientChunks ++ ys.map Content.val } := by
  induction ys with
  | nil => intro st hl ht; simp [StreamV0.emitYields]
  | cons y rest ih =>
    intro st hl ht
    have hstep : StreamV0.emitS0 ⟨.recv iid, some ⟨iid, .val y, false⟩⟩ st =
        { st with
          wire := st.wire ++ [⟨.recv iid, some ⟨iid, .val y, false⟩⟩],
          clientChunks := st.clientChunks ++ [Content.val y] } := by
      simp [StreamV0.emitS0, hl, StreamV0.fullListeners,
        StreamV0.runMatching0, StreamV0.runS0Listener, ht]
    have hnext := ih
      { st with
        wire := st.wire ++ [⟨.recv iid, some ⟨iid, .val y, false⟩⟩],
        clientChunks := st.clientChunks ++ [Content.val y] }
      (by simpa using hl) (by simpa using ht)
    simp only [StreamV0.emitYields, hstep, hnext]
    simp

/-- C2.  For every streaming invoke whose producer yields `xs` and then
returns normally: the client's response sequence receives exactly the
elements of `xs` in order and then closes cleanly — the wire carries the
`send`, one `receive-<id>` per element in order, and a final
`receive-stream-end-<id>`, with no error event. -/
theorem c2_streaming_yields_in_order {V : Type}
    (producer : HPayload V → StreamV0.GenRun V) (iid : String) (req : V)
    (xs : List V) (hiid : iid ≠ "")
    (hp : producer (.plain (.val req)) = ⟨xs, none⟩) :
    (StreamV0.c2Run producer iid req).clientChunks = xs.map Content.val ∧
      (StreamV0.c2Run producer iid req).clientTerm = some .closed ∧
      (StreamV0.c2Run producer iid req).wire =
        ⟨.send, some ⟨iid, .val req, false⟩⟩ ::
          ((xs.map fun y => ⟨.recv iid, some ⟨iid, .val y, false⟩⟩) ++
            [⟨.recvStreamEnd iid, some ⟨iid, .undefined, false⟩⟩]) ∧
      (StreamV0.c2Run producer iid req).tasks = [] ∧
      (StreamV0.c2Run producer iid req).handlerRuns =
        [(iid, .plain (.val req))] := by
  simp [StreamV0.c2Run, StreamV0.streamCall, StreamV0.serverState0,
    StreamV0.emptyS0, busOn, StreamV0.emitS0, StreamV0.runMatching0,
    StreamV0.runS0Listener, StreamV0.s0Step, hp, hiid,
    emitYields_appends, StreamV0.fullListeners]

/-- Witness for C2 at a concrete input. -/
theorem c2_streaming_yields_in_order_witness :
    (StreamV0.c2Run (V := Nat) (fun _ => ⟨[1, 2, 3], none⟩) "i" 7).clientChunks =
      [Content.val 1, Content.val 2, Content.val 3] :=
  ((c2_streaming_yields_in_order (fun _ => ⟨[1, 2, 3], none⟩) "i" 7 [1, 2, 3]
    (by decide) rfl).1).trans (by decide)

namespace RemoteMethods

mutual
/-- A nullified value contains no mapping object on `Object.prototype`. -/
theorem reaches_nullify : ∀ v : JVal, reachesObjectProto (nullify v) = false
  | .prim _ => rfl
  | .str _ => rfl
  | .func _ => rfl
  | .arr xs => by simp [nullify, reachesObjectProto, reaches_nullifyArr xs]
  | .obj p fs => by
      simp [nullify, reachesObjectProto, reaches_nullifyFields fs]

theorem reaches_nullifyArr :
    ∀ xs : JArr, reachesObjectProtoArr (nullifyArr xs) = false
  | .anil => rfl
  | .acons x rest => by
      simp [nullifyArr, reachesObjectProtoArr, reaches_nullify x,
        reaches_nullifyArr rest]

theorem reaches_nullifyFields :
    ∀ fs : JFields, reachesObjectProtoFields (nullifyFields fs) = false
  | .fnil => rfl
  | .fcons _ v rest => by
      simp [nullifyFields, reachesObjectProtoFields, reaches_nullify v,
        reaches_nullifyFields rest]
end

mutual
/-- On `plainish` inputs, a successful serializer walk rebuilds the value
with null prototypes and registers no stub handler. -/
theorem serWalk_plainish (o : StubOptions) :
    ∀ (v : JVal) (d c : Nat) (w : JVal) (c2 : Nat),
      plainish v = true → serWalk o v d c = .ok (w, c2) →
      w = nullify v ∧ c2 = c
  | .prim n, d, c, w, c2, _, hok => by
      simp [serWalk] at hok
      simp [nullify, ← hok.1, ← hok.2]
  | .str s, d, c, w, c2, _, hok => by
      simp [serWalk] at hok
      simp [nullify, ← hok.1, ← hok.2]
  | .func f, d, c, w, c2, hp, _ => by simp [plainish] at hp
  | .arr xs, d, c, w, c2, hp, hok => by
      simp only [plainish] at hp
      cases harr : serWalkArr o xs d c with
      | error e =>
        simp only [serWalk, harr] at hok
        split at hok <;> simp at hok
      | ok q =>
        obtain ⟨xs2, c3⟩ := q
        simp only [serWalk, harr] at hok
        split at hok
        · simp at hok
        · simp only [Except.ok.injEq, Prod.mk.injEq] at hok
          obtain ⟨h1, h2⟩ := hok
          subst h1
          subst h2
          obtain ⟨ha, hc⟩ := serWalkArr_plainish o xs d c xs2 c3 hp harr
          simp [nullify, ha, hc]
  | .obj p fs, d, c, w, c2, hp, hok => by
      simp only [plainish, Bool.and_eq_true, decide_eq_true_eq,
        Bool.not_eq_true'] at hp
      obtain ⟨⟨hpp, _⟩, hfs⟩ := hp
      cases p with
      | otherProto => exact absurd rfl hpp
      | objectProto =>
        cases hfld : serWalkFields o fs d c with
        | error e =>
          simp only [serWalk, hfld] at hok
          split at hok <;> simp at hok
        | ok q =>
          obtain ⟨fs2, c3⟩ := q
          simp only [serWalk, hfld] at hok
          split at hok
          · simp at hok
          · simp at hok
            obtain ⟨h1, h2⟩ := hok
            subst h1
            subst h2
            obtain ⟨ha, hc⟩ := serWalkFields_plainish o fs d c fs2 c3 hfs hfld
            simp [nullify, ha, hc]
      | nullProto =>
        cases hfld : serWalkFields o fs d c with
        | error e =>
          simp only [serWalk, hfld] at hok
          split at hok <;> simp at hok
        | ok q =>
          obtain ⟨fs2, c3⟩ := q
          simp only [serWalk, hfld] at hok
          split at hok
          · simp at hok
          · simp at hok
            obtain ⟨h1, h2⟩ := hok
            subst h1
            subst h2
            obtain ⟨ha, hc⟩ := serWalkFields_plainish o fs d c fs2 c3 hfs hfld
            simp [nullify, ha, hc]

theorem serWalkArr_plainish (o : StubOptions) :
    ∀ (xs : JArr) (d c : Nat) (xs2 : JArr) (c2 : Nat),
      plainishArr xs = true → serWalkArr o xs d c = .ok (xs2, c2) →
      xs2 = nullifyArr xs ∧ c2 = c
  | .anil, d, c, xs2, c2, _, hok => by
      simp [serWalkArr] at hok
      simp [nullifyArr, ← hok.1, ← hok.2]
  | .acons x rest, d, c, xs2, c2, hp, hok => by
      simp only [plainishArr, Bool.and_eq_true] at hp
      cases hx : serWalk o x (d + 1) c with
      | error e => simp [serWalkArr, hx] at hok
      | ok q =>
        obtain ⟨x2, c3⟩ := q
        cases hrest : serWalkArr o rest d c3 with
        | error e => simp [serWalkArr, hx, hrest] at hok
        | ok q2 =>
          obtain ⟨rest2, c4⟩ := q2
          simp only [serWalkArr, hx, hrest, Except.ok.injEq,
            Prod.mk.injEq] at hok
          obtain ⟨h1, h2⟩ := hok
          subst h1
          subst h2
          obtain ⟨ha1, hc1⟩ := serWalk_plainish o x (d + 1) c x2 c3 hp.1 hx
          obtain ⟨ha2, hc2⟩ :=
            serWalkArr_plainish o rest d c3 rest2 c4 hp.2 hrest
          simp [nullifyArr, ha1, ha2, hc1, hc2]

theorem serWalkFields_plainish (o : StubOptions) :
    ∀ (fs : JFields) (d c : Nat) (fs2 : JFields) (c2 : Nat),
      plainishFields fs = true → serWalkFields o fs d c = .ok (fs2, c2) →
      fs2 = nullifyFields fs ∧ c2 = c
  | .fnil, d, c, fs2, c2, _, hok => by
      simp [serWalkFields] at hok
      simp [nullifyFields, ← hok.1, ← hok.2]
  | .fcons k v rest, d, c, fs2, c2, hp, hok => by
      simp only [plainishFields, Bool.and_eq_true] at hp
      cases hv : serWalk o v (d + 1) c with
      | error e => simp [serWalkFields, hv] at hok
      | ok q =>
        obtain ⟨v2, c3⟩ := q
        cases hrest : serWalkFields o rest d c3 with
        | error e => simp [serWalkFields, hv, hrest] at hok
        | ok q2 =>
          obtain ⟨rest2, c4⟩ := q2
          simp only [serWalkFields, hv, hrest, Except.ok.injEq,
            Prod.mk.injEq] at hok
          obtain ⟨h1, h2⟩ := hok
          subst h1
          subst h2
          obtain ⟨ha1, hc1⟩ := serWalk_plainish o v (d + 1) c v2 c3 hp.1 hv
          obtain ⟨ha2, hc2⟩ :=
            serWalkFields_plainish o rest d c3 rest2 c4 hp.2 hrest
          simp [nullifyFields, ha1, ha2, hc1, hc2]
end

end RemoteMethods

namespace RemoteMethods

/-- A plain object without the `__eventaInvoke` key is not a stub. -/
theorem stubTag_eq_none_of_no_key (p : JProto) (fs : JFields)
    (h : hasKey "__eventaInvoke" fs = false) : stubTag (.obj p fs) = none := by
  have hg : getField "__eventaInvoke" fs = none := by
    cases hg : getField "__eventaInvoke" fs with
    | none => rfl
    | some v => rw [hasKey, hg] at h; simp at h
  cases p <;> simp [stubTag, hg]

mutual
/-- On `plainish` inputs, a successful deserializer walk rebuilds the value
with null prototypes and rehydrates no stub. -/
theorem deserWalk_plainish (o : StubOptions) :
    ∀ (v : JVal) (d c : Nat) (w : JVal) (c2 : Nat),
      plainish v = true → deserWalk o v d c = .ok (w, c2) →
      w = nullify v ∧ c2 = c
  | .prim n, d, c, w, c2, _, hok => by
      simp [deserWalk] at hok
      simp [nullify, ← hok.1, ← hok.2]
  | .str s, d, c, w, c2, _, hok => by
      simp [deserWalk] at hok
      simp [nullify, ← hok.1, ← hok.2]
  | .func f, d, c, w, c2, hp, _ => by simp [plainish] at hp
  | .arr xs, d, c, w, c2, hp, hok => by
      simp only [plainish] at hp
      cases harr : deserWalkArr o xs d c with
      | error e =>
        simp only [deserWalk, harr] at hok
        split at hok <;> simp at hok
      | ok q =>
        obtain ⟨xs2, c3⟩ := q
        simp only [deserWalk, harr] at hok
        split at hok
        · simp at hok
        · simp only [Except.ok.injEq, Prod.mk.injEq] at hok
          obtain ⟨h1, h2⟩ := hok
          subst h1
          subst h2
          obtain ⟨ha, hc⟩ := deserWalkArr_plainish o xs d c xs2 c3 hp harr
          simp [nullify, ha, hc]
  | .obj p fs, d, c, w, c2, hp, hok => by
      simp only [plainish, Bool.and_eq_true, decide_eq_true_eq,
        Bool.not_eq_true'] at hp
      obtain ⟨⟨hpp, hkey⟩, hfs⟩ := hp
      have hstub := stubTag_eq_none_of_no_key p fs hkey
      cases p with
      | otherProto => exact absurd rfl hpp
      | objectProto =>
        cases hfld : deserWalkFields o fs d c with
        | error e =>
          simp only [deserWalk, hstub, hfld] at hok
          split at hok <;> simp [hkey] at hok
        | ok q =>
          obtain ⟨fs2, c3⟩ := q
          simp only [deserWalk, hstub, hfld] at hok
          split at hok
          · simp at hok
          · simp [hkey] at hok
            obtain ⟨h1, h2⟩ := hok
            subst h1
            subst h2
            obtain ⟨ha, hc⟩ :=
              deserWalkFields_plainish o fs d c fs2 c3 hfs hfld
            simp [nullify, ha, hc]
      | nullProto =>
        cases hfld : deserWalkFields o fs d c with
        | error e =>
          simp only [deserWalk, hstub, hfld] at hok
          split at hok <;> simp [hkey] at hok
        | ok q =>
          obtain ⟨fs2, c3⟩ := q
          simp only [deserWalk, hstub, hfld] at hok
          split at hok
          · simp at hok
          · simp [hkey] at hok
            obtain ⟨h1, h2⟩ := hok
            subst h1
            subst h2
            obtain ⟨ha, hc⟩ :=
              deserWalkFields_plainish o fs d c fs2 c3 hfs hfld
            simp [nullify, ha, hc]

theorem deserWalkArr_plainish (o : StubOptions) :
    ∀ (xs : JArr) (d c : Nat) (xs2 : JArr) (c2 : Nat),
      plainishArr xs = true → deserWalkArr o xs d c = .ok (xs2, c2) →
      xs2 = nullifyArr xs ∧ c2 = c
  | .anil, d, c, xs2, c2, _, hok => by
      simp [deserWalkArr] at hok
      simp [nullifyArr, ← hok.1, ← hok.2]
  | .acons x rest, d, c, xs2, c2, hp, hok => by
      simp only [plainishArr, Bool.and_eq_true] at hp
      cases hx : deserWalk o x (d + 1) c with
      | error e => simp [deserWalkArr, hx] at hok
      | ok q =>
        obtain ⟨x2, c3⟩ := q
        cases hrest : deserWalkArr o rest d c3 with
        | error e => simp [deserWalkArr, hx, hrest] at hok
        | ok q2 =>
          obtain ⟨rest2, c4⟩ := q2
          simp only [deserWalkArr, hx, hrest, Except.ok.injEq,
            Prod.mk.injEq] at hok
          obtain ⟨h1, h2⟩ := hok
          subst h1
          subst h2
          obtain ⟨ha1, hc1⟩ := deserWalk_plainish o x (d + 1) c x2 c3 hp.1 hx
          obtain ⟨ha2, hc2⟩ :=
            deserWalkArr_plainish o rest d c3 rest2 c4 hp.2 hrest
          simp [nullifyArr, ha1, ha2, hc1, hc2]

theorem deserWalkFields_plainish (o : StubOptions) :
    ∀ (fs : JFields) (d c : Nat) (fs2 : JFields) (c2 : Nat),
      plainishFields fs = true → deserWalkFields o fs d c = .ok (fs2, c2) →
      fs2 = nullifyFields fs ∧ c2 = c
  | .fnil, d, c, fs2, c2, _, hok => by
      simp [deserWalkFields] at hok
      simp [nullifyFields, ← hok.1, ← hok.2]
  | .fcons k v rest, d, c, fs2, c2, hp, hok => by
      simp only [plainishFields, Bool.and_eq_true] at hp
      cases hv : deserWalk o v (d + 1) c with
      | error e => simp [deserWalkFields, hv] at hok
      | ok q =>
        obtain ⟨v2, c3⟩ := q
        cases hrest : deserWalkFields o rest d c3 with
        | error e => simp [deserWalkFields, hv, hrest] at hok
        | ok q2 =>
          obtain ⟨rest2, c4⟩ := q2
          simp only [deserWalkFields, hv, hrest, Except.ok.injEq,
            Prod.mk.injEq] at hok
          obtain ⟨h1, h2⟩ := hok
          subst h1
          subst h2
          obtain ⟨ha1, hc1⟩ := deserWalk_plainish o v (d + 1) c v2 c3 hp.1 hv
          obtain ⟨ha2, hc2⟩ :=
            deserWalkFields_plainish o rest d c3 rest2 c4 hp.2 hrest
          simp [nullifyFields, ha1, ha2, hc1, hc2]
end

end RemoteMethods

/-- C7 counterexample.  With function stubs allowed, serializing a bare
function yields the stub descriptor `{ __eventaInvoke: { tag } }`, which is
built from ordinary object literals: the output graph contains mapping
objects on `Object.prototype`, refuting "the output object graph reaches no
prototype other than null". -/
theorem c7_stub_literal_reaches_object_prototype :
    RemoteMethods.serializeInvokeFunctionPayload
        (RemoteMethods.defaultsWith true) (.func (.host 0)) =
      .ok (RemoteMethods.stubNode (RemoteMethods.defaultsWith true)
        (.host 0), 1) ∧
    RemoteMethods.reachesObjectProto
      (RemoteMethods.stubNode (RemoteMethods.defaultsWith true) (.host 0)) =
      true :=
  ⟨rfl, rfl⟩

/-- C7 (amended).  For inputs whose walked graph consists of primitives,
strings, arrays and plain objects only (no function values, no non-plain
objects, and no node carrying the `__eventaInvoke` key), both walks with
function stubs allowed rebuild every array and plain-object node, every
rebuilt mapping object has a null prototype, and the output graph reaches
no mapping object on `Object.prototype` — so malicious input keys such as
`__proto__`, `constructor`, `prototype` become inert own keys of
null-prototype objects.  (Function stubs, by contrast, are synthesized as
fresh object literals on `Object.prototype`, and non-plain objects are
passed through unwalked — see the counterexample.) -/
theorem c7_walks_rebuild_with_null_prototypes (o : RemoteMethods.StubOptions)
    (v w : RemoteMethods.JVal) (c2 : Nat) (hallow : o.allow = true)
    (hv : RemoteMethods.plainish v = true) :
    (RemoteMethods.serializeInvokeFunctionPayload o v = .ok (w, c2) →
        w = RemoteMethods.nullify v ∧
          RemoteMethods.reachesObjectProto w = false) ∧
    (RemoteMethods.deserializeInvokeFunctionPayload o v = .ok (w, c2) →
        w = RemoteMethods.nullify v ∧
          RemoteMethods.reachesObjectProto w = false) := by
  constructor
  · intro hok
    simp only [RemoteMethods.serializeInvokeFunctionPayload, hallow] at hok
    simp only [Bool.true_eq_false, if_false] at hok
    obtain ⟨h1, _⟩ := RemoteMethods.serWalk_plainish o v 0 0 w c2 hv hok
    exact ⟨h1, h1 ▸ RemoteMethods.reaches_nullify v⟩
  · intro hok
    simp only [RemoteMethods.deserializeInvokeFunctionPayload, hallow] at hok
    simp only [Bool.true_eq_false, if_false] at hok
    obtain ⟨h1, _⟩ := RemoteMethods.deserWalk_plainish o v 0 0 w c2 hv hok
    exact ⟨h1, h1 ▸ RemoteMethods.reaches_nullify v⟩

/-- Witness for C7 (amended) at a concrete input: the `__proto__`-keyed
payload of the repository's own pollution test. -/
theorem c7_walks_rebuild_with_null_prototypes_witness :
    (RemoteMethods.JVal.obj .nullProto
        (.fcons "__proto__" (.obj .nullProto .fnil) .fnil)) =
      RemoteMethods.nullify
        (.obj .objectProto (.fcons "__proto__" (.obj .objectProto .fnil)
          .fnil)) ∧
    RemoteMethods.reachesObjectProto
      (.obj .nullProto (.fcons "__proto__" (.obj .nullProto .fnil) .fnil)) =
      false :=
  (c7_walks_rebuild_with_null_prototypes (RemoteMethods.defaultsWith true)
    (.obj .objectProto (.fcons "__proto__" (.obj .objectProto .fnil) .fnil))
    (.obj .nullProto (.fcons "__proto__" (.obj .nullProto .fnil) .fnil))
    0 rfl (by decide)).1 (by decide)

namespace RemoteMethods

mutual
/-- A successful serializer walk counts exactly the walked function values,
and whenever it registered at least one stub, the final count is within the
cap. -/
theorem serWalk_count (o : StubOptions) :
    ∀ (v : JVal) (d c : Nat) (w : JVal) (c2 : Nat),
      serWalk o v d c = .ok (w, c2) →
      c2 = c + serFnCount v ∧ (serFnCount v ≠ 0 → c2 ≤ o.maxFunctions)
  | .prim n, d, c, w, c2, hok => by
      simp [serWalk] at hok
      simp [serFnCount, ← hok.2]
  | .str s, d, c, w, c2, hok => by
      simp [serWalk] at hok
      simp [serFnCount, ← hok.2]
  | .func f, d, c, w, c2, hok => by
      simp only [serWalk] at hok
      split at hok
      · simp at hok
      · simp only [Except.ok.injEq, Prod.mk.injEq] at hok
        obtain ⟨h1, h2⟩ := hok
        subst h2
        refine ⟨by simp [serFnCount], fun _ => ?_⟩
        omega
  | .arr xs, d, c, w, c2, hok => by
      cases harr : serWalkArr o xs d c with
      | error e =>
        simp only [serWalk, harr] at hok
        split at hok <;> simp at hok
      | ok q =>
        obtain ⟨xs2, c3⟩ := q
        simp only [serWalk, harr] at hok
        split at hok
        · simp at hok
        · simp only [Except.ok.injEq, Prod.mk.injEq] at hok
          obtain ⟨h1, h2⟩ := hok
          subst h2
          simpa [serFnCount] using serWalkArr_count o xs d c xs2 c3 harr
  | .obj p fs, d, c, w, c2, hok => by
      cases p with
      | otherProto =>
        simp only [serWalk] at hok
        split at hok
        · simp at hok
        · simp at hok
          simp [serFnCount, ← hok.2]
      | objectProto =>
        cases hfld : serWalkFields o fs d c with
        | error e =>
          simp only [serWalk, hfld] at hok
          split at hok <;> simp at hok
        | ok q =>
          obtain ⟨fs2, c3⟩ := q
          simp only [serWalk, hfld] at hok
          split at hok
          · simp at hok
          · simp at hok
            obtain ⟨h1, h2⟩ := hok
            subst h2
            simpa [serFnCount] using serWalkFields_count o fs d c fs2 c3 hfld
      | nullProto =>
        cases hfld : serWalkFields o fs d c with
        | error e =>
          simp only [serWalk, hfld] at hok
          split at hok <;> simp at hok
        | ok q =>
          obtain ⟨fs2, c3⟩ := q
          simp only [serWalk, hfld] at hok
          split at hok
          · simp at hok
          · simp at hok
            obtain ⟨h1, h2⟩ := hok
            subst h2
            simpa [serFnCount] using serWalkFields_count o fs d c fs2 c3 hfld

theorem serWalkArr_count (o : StubOptions) :
    ∀ (xs : JArr) (d c : Nat) (xs2 : JArr) (c2 : Nat),
      serWalkArr o xs d c = .ok (xs2, c2) →
      c2 = c + serFnCountArr xs ∧
        (serFnCountArr xs ≠ 0 → c2 ≤ o.maxFunctions)
  | .anil, d, c, xs2, c2, hok => by
      simp [serWalkArr] at hok
      simp [serFnCountArr, ← hok.2]
  | .acons x rest, d, c, xs2, c2, hok => by
      cases hx : serWalk o x (d + 1) c with
      | error e => simp [serWalkArr, hx] at hok
      | ok q =>
        obtain ⟨x2, c3⟩ := q
        cases hrest : serWalkArr o rest d c3 with
        | error e => simp [serWalkArr, hx, hrest] at hok
        | ok q2 =>
          obtain ⟨rest2, c4⟩ := q2
          simp only [serWalkArr, hx, hrest, Except.ok.injEq,
            Prod.mk.injEq] at hok
          obtain ⟨h1, h2⟩ := hok
          subst h2
          obtain ⟨ha1, ha2⟩ := serWalk_count o x (d + 1) c x2 c3 hx
          obtain ⟨hb1, hb2⟩ := serWalkArr_count o rest d c3 rest2 c4 hrest
          constructor
          · simp only [serFnCountArr]
            omega
          · intro hne
            simp only [serFnCountArr] at hne
            by_cases hr : serFnCountArr rest = 0
            · have hxne : serFnCount x ≠ 0 := by omega
              have := ha2 hxne
              omega
            · have := hb2 hr
              omega

theorem serWalkFields_count (o : StubOptions) :
    ∀ (fs : JFields) (d c : Nat) (fs2 : JFields) (c2 : Nat),
      serWalkFields o fs d c = .ok (fs2, c2) →
      c2 = c + serFnCountFields fs ∧
        (serFnCountFields fs ≠ 0 → c2 ≤ o.maxFunctions)
  | .fnil, d, c, fs2, c2, hok => by
      simp [serWalkFields] at hok
      simp [serFnCountFields, ← hok.2]
  | .fcons k v rest, d, c, fs2, c2, hok => by
      cases hv : serWalk o v (d + 1) c with
      | error e => simp [serWalkFields, hv] at hok
      | ok q =>
        obtain ⟨v2, c3⟩ := q
        cases hrest : serWalkFields o rest d c3 with
        | error e => simp [serWalkFields, hv, hrest] at hok
        | ok q2 =>
          obtain ⟨rest2, c4⟩ := q2
          simp only [serWalkFields, hv, hrest, Except.ok.injEq,
            Prod.mk.injEq] at hok
          obtain ⟨h1, h2⟩ := hok
          subst h2
          obtain ⟨ha1, ha2⟩ := serWalk_count o v (d + 1) c v2 c3 hv
          obtain ⟨hb1, hb2⟩ := serWalkFields_count o rest d c3 rest2 c4 hrest
          constructor
          · simp only [serFnCountFields]
            omega
          · intro hne
            simp only [serFnCountFields] at hne
            by_cases hr : serFnCountFields rest = 0
            · have hvne : serFnCount v ≠ 0 := by omega
              have := ha2 hvne
              omega
            · have := hb2 hr
              omega
end

mutual
/-- A successful serializer walk never passed a node whose depth check
would fire. -/
theorem serWalk_depth (o : StubOptions) :
    ∀ (v : JVal) (d c : Nat) (w : JVal) (c2 : Nat),
      serWalk o v d c = .ok (w, c2) → serTooDeep o.maxDepth v d = false
  | .prim n, d, c, w, c2, _ => by simp [serTooDeep]
  | .str s, d, c, w, c2, _ => by simp [serTooDeep]
  | .func f, d, c, w, c2, _ => by simp [serTooDeep]
  | .arr xs, d, c, w, c2, hok => by
      cases harr : serWalkArr o xs d c with
      | error e =>
        simp only [serWalk, harr] at hok
        split at hok <;> simp at hok
      | ok q =>
        obtain ⟨xs2, c3⟩ := q
        simp only [serWalk, harr] at hok
        split at hok
        · simp at hok
        · rename_i hd
          simp [serTooDeep, hd, serWalkArr_depth o xs d c xs2 c3 harr]
  | .obj p fs, d, c, w, c2, hok => by
      cases p with
      | otherProto =>
        simp only [serWalk] at hok
        split at hok
        · simp at hok
        · rename_i hd
          simp [serTooDeep, hd]
      | objectProto =>
        cases hfld : serWalkFields o fs d c with
        | error e =>
          simp only [serWalk, hfld] at hok
          split at hok <;> simp at hok
        | ok q =>
          obtain ⟨fs2, c3⟩ := q
          simp only [serWalk, hfld] at hok
          split at hok
          · simp at hok
          · rename_i hd
            simp [serTooDeep, hd, serWalkFields_depth o fs d c fs2 c3 hfld]
      | nullProto =>
        cases hfld : serWalkFields o fs d c with
        | error e =>
          simp only [serWalk, hfld] at hok
          split at hok <;> simp at hok
        | ok q =>
          obtain ⟨fs2, c3⟩ := q
          simp only [serWalk, hfld] at hok
          split at hok
          · simp at hok
          · rename_i hd
            simp [serTooDeep, hd, serWalkFields_depth o fs d c fs2 c3 hfld]

theorem serWalkArr_depth (o : StubOptions) :
    ∀ (xs : JArr) (d c : Nat) (xs2 : JArr) (c2 : Nat),
      serWalkArr o xs d c = .ok (xs2, c2) →
      serTooDeepArr o.maxDepth xs d = false
  | .anil, d, c, xs2, c2, _ => by simp [serTooDeepArr]
  | .acons x rest, d, c, xs2, c2, hok => by
      cases hx : serWalk o x (d + 1) c with
      | error e => simp [serWalkArr, hx] at hok
      | ok q =>
        obtain ⟨x2, c3⟩ := q
        cases hrest : serWalkArr o rest d c3 with
        | error e => simp [serWalkArr, hx, hrest] at hok
        | ok q2 =>
          obtain ⟨rest2, c4⟩ := q2
          simp [serTooDeepArr, serWalk_depth o x (d + 1) c x2 c3 hx,
            serWalkArr_depth o rest d c3 rest2 c4 hrest]

theorem serWalkFields_depth (o : StubOptions) :
    ∀ (fs : JFields) (d c : Nat) (fs2 : JFields) (c2 : Nat),
      serWalkFields o fs d c = .ok (fs2, c2) →
      serTooDeepFields o.maxDepth fs d = false
  | .fnil, d, c, fs2, c2, _ => by simp [serTooDeepFields]
  | .fcons k v rest, d, c, fs2, c2, hok => by
      cases hv : serWalk o v (d + 1) c with
      | error e => simp [serWalkFields, hv] at hok
      | ok q =>
        obtain ⟨v2, c3⟩ := q
        cases hrest : serWalkFields o rest d c3 with
        | error e => simp [serWalkFields, hv, hrest] at hok
        | ok q2 =>
          obtain ⟨rest2, c4⟩ := q2
          simp [serTooDeepFields, serWalk_depth o v (d + 1) c v2 c3 hv,
            serWalkFields_depth o rest d c3 rest2 c4 hrest]
end

end RemoteMethods

namespace RemoteMethods

mutual
/-- A successful deserializer walk rehydrates exactly the recognized stub
descriptors it reaches, and whenever it rehydrated at least one, the final
count is within the cap. -/
theorem deserWalk_count (o : StubOptions) :
    ∀ (v : JVal) (d c : Nat) (w : JVal) (c2 : Nat),
      deserWalk o v d c = .ok (w, c2) →
      c2 = c + deserCount o v ∧ (deserCount o v ≠ 0 → c2 ≤ o.maxFunctions)
  | .prim n, d, c, w, c2, hok => by
      simp [deserWalk] at hok
      simp [deserCount, ← hok.2]
  | .str s, d, c, w, c2, hok => by
      simp [deserWalk] at hok
      simp [deserCount, ← hok.2]
  | .func f, d, c, w, c2, hok => by
      simp [deserWalk] at hok
      simp [deserCount, ← hok.2]
  | .arr xs, d, c, w, c2, hok => by
      cases harr : deserWalkArr o xs d c with
      | error e =>
        simp only [deserWalk, harr] at hok
        split at hok <;> simp at hok
      | ok q =>
        obtain ⟨xs2, c3⟩ := q
        simp only [deserWalk, harr] at hok
        split at hok
        · simp at hok
        · simp only [Except.ok.injEq, Prod.mk.injEq] at hok
          obtain ⟨h1, h2⟩ := hok
          subst h2
          simpa [deserCount] using deserWalkArr_count o xs d c xs2 c3 harr
  | .obj p fs, d, c, w, c2, hok => by
      cases hst : stubTag (.obj p fs) with
      | some t =>
        simp only [deserWalk, hst] at hok
        split at hok
        · simp at hok
        · split at hok
          · simp at hok
          · rename_i hcap
            split at hok
            · rename_i hpm
              split at hok
              · simp at hok
              · simp only [Except.ok.injEq, Prod.mk.injEq] at hok
                obtain ⟨h1, h2⟩ := hok
                subst h2
                constructor
                · simp [deserCount, hst, hpm]
                · intro hne
                  simp [deserCount, hst, hpm] at hne
            · rename_i hpm
              simp only [Except.ok.injEq, Prod.mk.injEq] at hok
              obtain ⟨h1, h2⟩ := hok
              subst h2
              constructor
              · simp [deserCount, hst, hpm]
              · intro _
                omega
      | none =>
        simp only [deserWalk, hst] at hok
        split at hok
        · simp at hok
        · split at hok
          · simp at hok
          · split at hok
            · rename_i hpe
              subst hpe
              simp only [Except.ok.injEq, Prod.mk.injEq] at hok
              obtain ⟨h1, h2⟩ := hok
              subst h2
              constructor
              · simp [deserCount, hst]
              · intro hne
                simp [deserCount, hst] at hne
            · rename_i hpe
              split at hok
              · simp at hok
              · rename_i fs2 c3 hfld
                simp only [Except.ok.injEq, Prod.mk.injEq] at hok
                obtain ⟨h1, h2⟩ := hok
                subst h2
                obtain ⟨hb1, hb2⟩ :=
                  deserWalkFields_count o fs d c fs2 c3 hfld
                constructor
                · simp only [deserCount, hst, if_neg hpe]
                  omega
                · intro hne
                  simp only [deserCount, hst, if_neg hpe] at hne
                  exact hb2 hne

theorem deserWalkArr_count (o : StubOptions) :
    ∀ (xs : JArr) (d c : Nat) (xs2 : JArr) (c2 : Nat),
      deserWalkArr o xs d c = .ok (xs2, c2) →
      c2 = c + deserCountArr o xs ∧
        (deserCountArr o xs ≠ 0 → c2 ≤ o.maxFunctions)
  | .anil, d, c, xs2, c2, hok => by
      simp [deserWalkArr] at hok
      simp [deserCountArr, ← hok.2]
  | .acons x rest, d, c, xs2, c2, hok => by
      cases hx : deserWalk o x (d + 1) c with
      | error e => simp [deserWalkArr, hx] at hok
      | ok q =>
        obtain ⟨x2, c3⟩ := q
        cases hrest : deserWalkArr o rest d c3 with
        | error e => simp [deserWalkArr, hx, hrest] at hok
        | ok q2 =>
          obtain ⟨rest2, c4⟩ := q2
          simp only [deserWalkArr, hx, hrest, Except.ok.injEq,
            Prod.mk.injEq] at hok
          obtain ⟨h1, h2⟩ := hok
          subst h2
          obtain ⟨ha1, ha2⟩ := deserWalk_count o x (d + 1) c x2 c3 hx
          obtain ⟨hb1, hb2⟩ := deserWalkArr_count o rest d c3 rest2 c4 hrest
          constructor
          · simp only [deserCountArr]
            omega
          · intro hne
            simp only [deserCountArr] at hne
            by_cases hr : deserCountArr o rest = 0
            · have hxne : deserCount o x ≠ 0 := by omega
              have := ha2 hxne
              omega
            · have := hb2 hr
              omega

theorem deserWalkFields_count (o : StubOptions) :
    ∀ (fs : JFields) (d c : Nat) (fs2 : JFields) (c2 : Nat),
      deserWalkFields o fs d c = .ok (fs2, c2) →
      c2 = c + deserCountFields o fs ∧
        (deserCountFields o fs ≠ 0 → c2 ≤ o.maxFunctions)
  | .fnil, d, c, fs2, c2, hok => by
      simp [deserWalkFields] at hok
      simp [deserCountFields, ← hok.2]
  | .fcons k v rest, d, c, fs2, c2, hok => by
      cases hv : deserWalk o v (d + 1) c with
      | error e => simp [deserWalkFields, hv] at hok
      | ok q =>
        obtain ⟨v2, c3⟩ := q
        cases hrest : deserWalkFields o rest d c3 with
        | error e => simp [deserWalkFields, hv, hrest] at hok
        | ok q2 =>
          obtain ⟨rest2, c4⟩ := q2
          simp only [deserWalkFields, hv, hrest, Except.ok.injEq,
            Prod.mk.injEq] at hok
          obtain ⟨h1, h2⟩ := hok
          subst h2
          obtain ⟨ha1, ha2⟩ := deserWalk_count o v (d + 1) c v2 c3 hv
          obtain ⟨hb1, hb2⟩ :=
            deserWalkFields_count o rest d c3 rest2 c4 hrest
          constructor
          · simp only [deserCountFields]
            omega
          · intro hne
            simp only [deserCountFields] at hne
            by_cases hr : deserCountFields o rest = 0
            · have hvne : deserCount o v ≠ 0 := by omega
              have := ha2 hvne
              omega
            · have := hb2 hr
              omega
end

mutual
/-- A successful deserializer walk never passed a node whose depth check
would fire. -/
theorem deserWalk_depth (o : StubOptions) :
    ∀ (v : JVal) (d c : Nat) (w : JVal) (c2 : Nat),
      deserWalk o v d c = .ok (w, c2) → deserTooDeep o.maxDepth v d = false
  | .prim n, d, c, w, c2, _ => by simp [deserTooDeep]
  | .str s, d, c, w, c2, _ => by simp [deserTooDeep]
  | .func f, d, c, w, c2, _ => by simp [deserTooDeep]
  | .arr xs, d, c, w, c2, hok => by
      cases harr : deserWalkArr o xs d c with
      | error e =>
        simp only [deserWalk, harr] at hok
        split at hok <;> simp at hok
      | ok q =>
        obtain ⟨xs2, c3⟩ := q
        simp only [deserWalk, harr] at hok
        split at hok
        · simp at hok
        · rename_i hd
          simp [deserTooDeep, hd, deserWalkArr_depth o xs d c xs2 c3 harr]
  | .obj p fs, d, c, w, c2, hok => by
      cases hst : stubTag (.obj p fs) with
      | some t =>
        simp only [deserWalk, hst] at hok
        split at hok
        · simp at hok
        · rename_i hd
          simp [deserTooDeep, hst, hd]
      | none =>
        simp only [deserWalk, hst] at hok
        split at hok
        · simp at hok
        · rename_i hd
          split at hok
          · simp at hok
          · split at hok
            · rename_i hpe
              subst hpe
              simp [deserTooDeep, hst, hd]
            · rename_i hpe
              split at hok
              · simp at hok
              · rename_i fs2 c3 hfld
                simp [deserTooDeep, hst, hd, if_neg hpe,
                  deserWalkFields_depth o fs d c fs2 c3 hfld]

theorem deserWalkArr_depth (o : StubOptions) :
    ∀ (xs : JArr) (d c : Nat) (xs2 : JArr) (c2 : Nat),
      deserWalkArr o xs d c = .ok (xs2, c2) →
      deserTooDeepArr o.maxDepth xs d = false
  | .anil, d, c, xs2, c2, _ => by simp [deserTooDeepArr]
  | .acons x rest, d, c, xs2, c2, hok => by
      cases hx : deserWalk o x (d + 1) c with
      | error e => simp [deserWalkArr, hx] at hok
      | ok q =>
        obtain ⟨x2, c3⟩ := q
        cases hrest : deserWalkArr o rest d c3 with
        | error e => simp [deserWalkArr, hx, hrest] at hok
        | ok q2 =>
          obtain ⟨rest2, c4⟩ := q2
          simp [deserTooDeepArr, deserWalk_depth o x (d + 1) c x2 c3 hx,
            deserWalkArr_depth o rest d c3 rest2 c4 hrest]

theorem deserWalkFields_depth (o : StubOptions) :
    ∀ (fs : JFields) (d c : Nat) (fs2 : JFields) (c2 : Nat),
      deserWalkFields o fs d c = .ok (fs2, c2) →
      deserTooDeepFields o.maxDepth fs d = false
  | .fnil, d, c, fs2, c2, _ => by simp [deserTooDeepFields]
  | .fcons k v rest, d, c, fs2, c2, hok => by
      cases hv : deserWalk o v (d + 1) c with
      | error e => simp [deserWalkFields, hv] at hok
      | ok q =>
        obtain ⟨v2, c3⟩ := q
        cases hrest : deserWalkFields o rest d c3 with
        | error e => simp [deserWalkFields, hv, hrest] at hok
        | ok q2 =>
          obtain ⟨rest2, c4⟩ := q2
          simp [deserTooDeepFields, deserWalk_depth o v (d + 1) c v2 c3 hv,
            deserWalkFields_depth o rest d c3 rest2 c4 hrest]
end

mutual
/-- In strict mode, a successful deserializer walk reached no node that
carries the `__eventaInvoke` key with a malformed descriptor. -/
theorem deserWalk_strict (o : StubOptions) (hs : o.strict = true) :
    ∀ (v : JVal) (d c : Nat) (w : JVal) (c2 : Nat),
      deserWalk o v d c = .ok (w, c2) → deserHasMalformed v = false
  | .prim n, d, c, w, c2, _ => by simp [deserHasMalformed]
  | .str s, d, c, w, c2, _ => by simp [deserHasMalformed]
  | .func f, d, c, w, c2, _ => by simp [deserHasMalformed]
  | .arr xs, d, c, w, c2, hok => by
      cases harr : deserWalkArr o xs d c with
      | error e =>
        simp only [deserWalk, harr] at hok
        split at hok <;> simp at hok
      | ok q =>
        obtain ⟨xs2, c3⟩ := q
        simp only [deserWalk, harr] at hok
        split at hok
        · simp at hok
        · simp [deserHasMalformed,
            deserWalkArr_strict o hs xs d c xs2 c3 harr]
  | .obj p fs, d, c, w, c2, hok => by
      cases hst : stubTag (.obj p fs) with
      | some t => simp [deserHasMalformed, hst]
      | none =>
        simp only [deserWalk, hst] at hok
        split at hok
        · simp at hok
        · split at hok
          · simp at hok
          · rename_i hcond
            split at hok
            · rename_i hpe
              subst hpe
              simp [deserHasMalformed, hst]
            · rename_i hpe
              have hplain : isPlainObject (.obj p fs) = true := by
                cases p <;> simp_all [isPlainObject]
              have hkey : hasKey "__eventaInvoke" fs = false := by
                by_contra hk
                apply hcond
                refine ⟨by simp [hs], by simp [hplain], ?_⟩
                simpa using hk
              split at hok
              · simp at hok
              · rename_i fs2 c3 hfld
                simp [deserHasMalformed, hst, if_neg hpe, hkey,
                  deserWalkFields_strict o hs fs d c fs2 c3 hfld]

theorem deserWalkArr_strict (o : StubOptions) (hs : o.strict = true) :
    ∀ (xs : JArr) (d c : Nat) (xs2 : JArr) (c2 : Nat),
      deserWalkArr o xs d c = .ok (xs2, c2) →
      deserHasMalformedArr xs = false
  | .anil, d, c, xs2, c2, _ => by simp [deserHasMalformedArr]
  | .acons x rest, d, c, xs2, c2, hok => by
      cases hx : deserWalk o x (d + 1) c with
      | error e => simp [deserWalkArr, hx] at hok
      | ok q =>
        obtain ⟨x2, c3⟩ := q
        cases hrest : deserWalkArr o rest d c3 with
        | error e => simp [deserWalkArr, hx, hrest] at hok
        | ok q2 =>
          obtain ⟨rest2, c4⟩ := q2
          simp [deserHasMalformedArr,
            deserWalk_strict o hs x (d + 1) c x2 c3 hx,
            deserWalkArr_strict o hs rest d c3 rest2 c4 hrest]

theorem deserWalkFields_strict (o : StubOptions) (hs : o.strict = true) :
    ∀ (fs : JFields) (d c : Nat) (fs2 : JFields) (c2 : Nat),
      deserWalkFields o fs d c = .ok (fs2, c2) →
      deserHasMalformedFields fs = false
  | .fnil, d, c, fs2, c2, _ => by simp [deserHasMalformedFields]
  | .fcons k v rest, d, c, fs2, c2, hok => by
      cases hv : deserWalk o v (d + 1) c with
      | error e => simp [deserWalkFields, hv] at hok
      | ok q =>
        obtain ⟨v2, c3⟩ := q
        cases hrest : deserWalkFields o rest d c3 with
        | error e => simp [deserWalkFields, hv, hrest] at hok
        | ok q2 =>
          obtain ⟨rest2, c4⟩ := q2
          simp [deserHasMalformedFields,
            deserWalk_strict o hs v (d + 1) c v2 c3 hv,
            deserWalkFields_strict o hs rest d c3 rest2 c4 hrest]
end

end RemoteMethods

/-- C8.  With function stubs allowed: when the function values the
serializer walks exceed `maxFunctions`, or the walked nesting depth exceeds
`maxDepth`, the serializer raises synchronously, and the remote invoke
wrapper returns an already-rejected promise without emitting any `send`;
when the recognized stub descriptors the deserializer walks exceed
`maxFunctions`, or its walked depth exceeds `maxDepth`, the deserializer
raises; and in strict mode a walked node carrying the `__eventaInvoke` key
with a malformed descriptor is a hard error. -/
theorem c8_caps_raise_at_serialize_boundary (o : RemoteMethods.StubOptions)
    (v : RemoteMethods.JVal) (hallow : o.allow = true) :
    (RemoteMethods.serFnCount v > o.maxFunctions ∨
          RemoteMethods.serTooDeep o.maxDepth v 0 = true →
        RemoteMethods.serializeInvokeFunctionPayload o v = .error () ∧
          RemoteMethods.remoteInvoke o v = .error () ∧
          RemoteMethods.remoteInvokeEmits o v = []) ∧
      (RemoteMethods.deserCount o v > o.maxFunctions ∨
          RemoteMethods.deserTooDeep o.maxDepth v 0 = true →
        RemoteMethods.deserializeInvokeFunctionPayload o v = .error ()) ∧
      (o.strict = true → RemoteMethods.deserHasMalformed v = true →
        RemoteMethods.deserializeInvokeFunctionPayload o v = .error ()) := by
  have hser : RemoteMethods.serFnCount v > o.maxFunctions ∨
      RemoteMethods.serTooDeep o.maxDepth v 0 = true →
      RemoteMethods.serWalk o v 0 0 = .error () := by
    intro hcond
    cases hres : RemoteMethods.serWalk o v 0 0 with
    | error e => rfl
    | ok q =>
      obtain ⟨w, c2⟩ := q
      rcases hcond with hcnt | hdeep
      · obtain ⟨h1, h2⟩ := RemoteMethods.serWalk_count o v 0 0 w c2 hres
        have hne : RemoteMethods.serFnCount v ≠ 0 := by omega
        have := h2 hne
        omega
      · have := RemoteMethods.serWalk_depth o v 0 0 w c2 hres
        rw [this] at hdeep
        simp at hdeep
  refine ⟨?_, ?_, ?_⟩
  · intro hcond
    have herr := hser hcond
    have hserp : RemoteMethods.serializeInvokeFunctionPayload o v =
        .error () := by
      simp [RemoteMethods.serializeInvokeFunctionPayload, hallow, herr]
    refine ⟨hserp, ?_, ?_⟩
    · simp [RemoteMethods.remoteInvoke, hallow, hserp]
    · simp [RemoteMethods.remoteInvokeEmits, RemoteMethods.remoteInvoke,
        hallow, hserp]
  · intro hcond
    have herr : RemoteMethods.deserWalk o v 0 0 = .error () := by
      cases hres : RemoteMethods.deserWalk o v 0 0 with
      | error e => rfl
      | ok q =>
        obtain ⟨w, c2⟩ := q
        rcases hcond with hcnt | hdeep
        · obtain ⟨h1, h2⟩ := RemoteMethods.deserWalk_count o v 0 0 w c2 hres
          have hne : RemoteMethods.deserCount o v ≠ 0 := by omega
          have := h2 hne
          omega
        · have := RemoteMethods.deserWalk_depth o v 0 0 w c2 hres
          rw [this] at hdeep
          simp at hdeep
    simp [RemoteMethods.deserializeInvokeFunctionPayload, hallow, herr]
  · intro hs hmal
    cases hres : RemoteMethods.deserWalk o v 0 0 with
    | error e =>
      cases e
      simp [RemoteMethods.deserializeInvokeFunctionPayload, hallow, hres]
    | ok q =>
      obtain ⟨w, c2⟩ := q
      have := RemoteMethods.deserWalk_strict o hs v 0 0 w c2 hres
      rw [this] at hmal
      simp at hmal

/-- Witness for C8 at concrete inputs: two functions against a cap of one,
a nested object against a depth cap of zero, and a malformed stub in strict
mode. -/
theorem c8_caps_raise_at_serialize_boundary_witness :
    (RemoteMethods.serializeInvokeFunctionPayload
        { RemoteMethods.defaultsWith true with maxFunctions := 1 }
        (.arr (.acons (.func (.host 0)) (.acons (.func (.host 1)) .anil))) =
          .error () ∧
      RemoteMethods.remoteInvoke
        { RemoteMethods.defaultsWith true with maxFunctions := 1 }
        (.arr (.acons (.func (.host 0)) (.acons (.func (.host 1)) .anil))) =
          .error () ∧
      RemoteMethods.remoteInvokeEmits
        { RemoteMethods.defaultsWith true with maxFunctions := 1 }
        (.arr (.acons (.func (.host 0)) (.acons (.func (.host 1)) .anil))) =
          []) ∧
    RemoteMethods.deserializeInvokeFunctionPayload
        { RemoteMethods.defaultsWith true with maxDepth := 0 }
        (.obj .objectProto (.fcons "a" (.obj .objectProto .fnil) .fnil)) =
          .error () ∧
    RemoteMethods.deserializeInvokeFunctionPayload
        { RemoteMethods.defaultsWith true with strict := true }
        (.obj .objectProto (.fcons "__eventaInvoke" (.str "nope") .fnil)) =
          .error () :=
  ⟨(c8_caps_raise_at_serialize_boundary
      { RemoteMethods.defaultsWith true with maxFunctions := 1 }
      (.arr (.acons (.func (.host 0)) (.acons (.func (.host 1)) .anil)))
      rfl).1 (Or.inl (by decide)),
   (c8_caps_raise_at_serialize_boundary
      { RemoteMethods.defaultsWith true with maxDepth := 0 }
      (.obj .objectProto (.fcons "a" (.obj .objectProto .fnil) .fnil))
      rfl).2.1 (Or.inr (by decide)),
   (c8_caps_raise_at_serialize_boundary
      { RemoteMethods.defaultsWith true with strict := true }
      (.obj .objectProto (.fcons "__eventaInvoke" (.str "nope") .fnil))
      rfl).2.2 rfl (by decide)⟩

end Eventa

